import Mathlib

/-!
# gmq: MQTT v5 packet codec

A shallow embedding of the Go package `gmq` (`misc.go`, `property.go`, `mqtt.go`).

Conventions of the embedding:

* a Go `[]byte` and a Go `string` are both a `List Nat` of byte values (a Go string is an
  immutable byte sequence, and `[]byte(s)` / `string(b)` copy the bytes unchanged); a `nil`
  slice and an empty slice are the same list;
* `byte`, `uint16`, `uint32`, `uint64` values are natural numbers, with an explicit `% 2^w`
  wherever the Go operation can wrap;
* a Go slice expression that is out of range panics; a function that can panic returns an
  `Option`, `none` being the panic. A slice is taken to have capacity equal to its length;
* `len(x)` is an `int`, so `uint64(len(x))` is `x.length`.
-/

namespace Gmq

/-! ## misc.go -/

/-- Go `MAX_UINT16 = int(^uint16(0))`. -/
def MAX_UINT16 : Nat := 65535

/-- The `for l := payloadLen; l > 0; { ... }` loop of `encodeLength`; `fuel` bounds the number of
iterations, and `l` itself is enough fuel because `l / 128 < l`. -/
def encodeLengthLoop : Nat → Nat → List Nat
  | 0, _ => []
  | fuel + 1, l =>
    if l > 0 then
      let b := l % 128 % 256
      let l := l / 128
      let b := if l > 0 then b ||| 128 else b
      b :: encodeLengthLoop fuel l
    else []

/-- Go `func encodeLength(payloadLen uint64) []byte`. -/
def encodeLength (payloadLen : Nat) : List Nat :=
  if payloadLen = 0 then [0] else encodeLengthLoop payloadLen payloadLen

/-- The loop of `extractLength` from index `idx` on, with the running `mut` (here `mult`) and
`result`; the list is `b[idx:]`. Leaving the loop by `break` at `idx` returns `b[idx+1:]`;
exhausting the buffer leaves `idx = len(b)` and `b[len(b)+1:]` panics. -/
def extractLengthLoop (mult result : Nat) : List Nat → Option (Nat × List Nat)
  | [] => none
  | x :: rest =>
    let result := (result + (x &&& 127) * mult % 2 ^ 64) % 2 ^ 64
    let mult := mult * 128 % 2 ^ 64
    if x &&& 128 = 0 then some (result, rest) else extractLengthLoop mult result rest

/-- Go `func extractLength(b []byte) (uint64, []byte)`. -/
def extractLength (b : List Nat) : Option (Nat × List Nat) :=
  extractLengthLoop 1 0 b

/-- Go `func encodeUint16(i uint16) []byte`: `binary.BigEndian.PutUint16` writes `byte(i >> 8)`,
`byte(i)`. -/
def encodeUint16 (i : Nat) : List Nat :=
  [i / 256 % 256, i % 256]

/-- Go `func extractUint16(b []byte) (uint16, []byte)`: `binary.BigEndian.Uint16` reads
`b[0] << 8 | b[1]`. -/
def extractUint16 : List Nat → Nat × List Nat
  | b0 :: b1 :: rest => (b0 * 256 + b1, rest)
  | _ => (0, [])

/-- Go `func encodeUint32(i uint32) []byte`: `binary.BigEndian.PutUint32`. -/
def encodeUint32 (i : Nat) : List Nat :=
  [i / 16777216 % 256, i / 65536 % 256, i / 256 % 256, i % 256]

/-- Go `func extractUint32(b []byte) (uint32, []byte)`: `binary.BigEndian.Uint32`. -/
def extractUint32 : List Nat → Nat × List Nat
  | b0 :: b1 :: b2 :: b3 :: rest => (b0 * 16777216 + b1 * 65536 + b2 * 256 + b3, rest)
  | _ => (0, [])

/-- Go `func encodeString(s string) []byte`. -/
def encodeString (s : List Nat) : List Nat :=
  let result := if s.length ≥ MAX_UINT16 then s.take (MAX_UINT16 - 1) else s
  encodeUint16 (result.length % 65536) ++ result

/-- Go `func extractString(b []byte) (string, []byte)`. -/
def extractString (b : List Nat) : List Nat × List Nat :=
  let (l, buf) := extractUint16 b
  let l := if l > buf.length then buf.length % 65536 else l
  (buf.take l, buf.drop l)

/-- Go `func encodeBinary(b []byte) []byte`. -/
def encodeBinary (b : List Nat) : List Nat :=
  let l := b.length
  let l := if l ≥ MAX_UINT16 then MAX_UINT16 - 1 else l
  encodeUint16 (l % 65536) ++ b.take l

/-- Go `func extractBinary(b []byte) ([]byte, []byte)`. -/
def extractBinary (b : List Nat) : List Nat × List Nat :=
  let (l, buf) := extractUint16 b
  let l := if l > buf.length then buf.length % 65536 else l
  (buf.take l, buf.drop l)

/-- Go `func encodeBool(b bool) []byte`. -/
def encodeBool (b : Bool) : List Nat :=
  [if b then 1 else 0]

/-- Go `func extractBool(b []byte) (bool, []byte)`. -/
def extractBool : List Nat → Bool × List Nat
  | [] => (false, [])
  | b0 :: rest => (decide (b0 > 0), rest)

/-- Go `func extractByte(b []byte) (byte, []byte)`. -/
def extractByte : List Nat → Nat × List Nat
  | [] => (0, [])
  | b0 :: rest => (b0, rest)

/-- Go `type KeyValue struct`. -/
structure KeyValue where
  Key : List Nat
  Value : List Nat
deriving DecidableEq

/-- Go `func encodeKeyValue(v KeyValue) []byte`. -/
def encodeKeyValue (v : KeyValue) : List Nat :=
  encodeString v.Key ++ encodeString v.Value

/-- Go `func extractKeyValue(b []byte) (KeyValue, []byte)`. -/
def extractKeyValue (b : List Nat) : KeyValue × List Nat :=
  let (key, b) := extractString b
  let (value, b) := extractString b
  ({ Key := key, Value := value }, b)


/-! ## property.go -/

def PROP_PAYLOAD_FORMAT : Nat := 1
def PROP_MESSAGE_EXPIRY_INTERVAL : Nat := 2
def PROP_CONTENT_TYPE : Nat := 3
def PROP_RESPONSE_TOPIC : Nat := 8
def PROP_CORRELATION_DATA : Nat := 9
def PROP_SESSION_EXPIRY_INTERVAL : Nat := 17
def PROP_ASSIGNED_CLIENT_ID : Nat := 18
def PROP_SERVER_KEEP_ALIVE : Nat := 19
def PROP_AUTHENTICATION_METHOD : Nat := 21
def PROP_AUTHENTICATION_DATA : Nat := 22
def PROP_REQUEST_PROBLEM_INFO : Nat := 23
def PROP_DELAY_INTERVAL : Nat := 24
def PROP_REQUEST_RESPONSE_INFO : Nat := 25
def PROP_RESPONSE_INFO : Nat := 26
def PROP_SERVER_REFERENCE : Nat := 28
def PROP_REASON_STRING : Nat := 31
def PROP_RECEIVE_MAX : Nat := 33
def PROP_ALIAS_MAX : Nat := 34
def PROP_MAX_QOS : Nat := 36
def PROP_RETAIN_AVAILABLE : Nat := 37
def PROP_USER_PROPERTY : Nat := 38
def PROP_MAX_PACKET_SIZE : Nat := 39
def PROP_WILDCARD_SUBSCRIPTION_AVAILABLE : Nat := 40
def PROP_SUBSCRIPTION_IDS_AVAILABLE : Nat := 41
def PROP_SHARED_SUBSCTION_AVAILABLE : Nat := 42

/-- The dynamic values a `Property.Value` of type `any` can hold: one constructor for each case
of the type switch in `Property.Bytes`, and `other` for `nil` and every other dynamic type. -/
inductive Any where
  | bool (val : Bool)
  | byte (val : Nat)
  | uint16 (val : Nat)
  | uint32 (val : Nat)
  | bytes (val : List Nat)
  | string (val : List Nat)
  | keyValue (val : KeyValue)
  | other
deriving DecidableEq

/-- Go `type Property struct { Type PropertyType; Value any }`; the field `Type` is `Typ` here. -/
structure Property where
  Typ : Nat
  Value : Any
deriving DecidableEq

/-- Go `func (p Property) Bytes() []byte`. -/
def Property.Bytes (p : Property) : List Nat :=
  let result := [p.Typ]
  match p.Value with
  | .bool val => result ++ encodeBool val
  | .byte val => result ++ [val]
  | .uint16 val => result ++ encodeUint16 val
  | .uint32 val => result ++ encodeUint32 val
  | .bytes val => result ++ encodeBinary val
  | .string val => result ++ encodeString val
  | .keyValue val => result ++ encodeKeyValue val
  | .other => []

/-- The `result` that the `for _, prop := range properties` loop of `propertyBytes` builds. -/
def propertiesBody (properties : List Property) : List Nat :=
  properties.foldl (fun result prop => result ++ prop.Bytes) []

/-- Go `func propertyBytes(properties ...Property) []byte`. -/
def propertyBytes (properties : List Property) : List Nat :=
  let result := propertiesBody properties
  let l := result.length
  encodeLength l ++ result

/-- The `switch ptype` of `extractProperties`: the value decoded for tag `ptype` from `buf` and
the rest of `buf`, or `none` in the `default` case. -/
def extractValue (ptype : Nat) (buf : List Nat) : Option (Any × List Nat) :=
  if ptype = PROP_PAYLOAD_FORMAT then some ((extractBool buf).map Any.bool id)
  else if ptype = PROP_MESSAGE_EXPIRY_INTERVAL then some ((extractUint32 buf).map Any.uint32 id)
  else if ptype = PROP_CONTENT_TYPE then some ((extractString buf).map Any.string id)
  else if ptype = PROP_RESPONSE_TOPIC then some ((extractString buf).map Any.string id)
  else if ptype = PROP_CORRELATION_DATA then some ((extractBinary buf).map Any.bytes id)
  else if ptype = PROP_SESSION_EXPIRY_INTERVAL then some ((extractUint32 buf).map Any.uint32 id)
  else if ptype = PROP_ASSIGNED_CLIENT_ID then some ((extractString buf).map Any.string id)
  else if ptype = PROP_SERVER_KEEP_ALIVE then some ((extractUint16 buf).map Any.uint16 id)
  else if ptype = PROP_AUTHENTICATION_METHOD then some ((extractString buf).map Any.string id)
  else if ptype = PROP_AUTHENTICATION_DATA then some ((extractBinary buf).map Any.bytes id)
  else if ptype = PROP_REQUEST_PROBLEM_INFO then some ((extractBool buf).map Any.bool id)
  else if ptype = PROP_DELAY_INTERVAL then some ((extractUint32 buf).map Any.uint32 id)
  else if ptype = PROP_REQUEST_RESPONSE_INFO then some ((extractBool buf).map Any.bool id)
  else if ptype = PROP_RESPONSE_INFO then some ((extractString buf).map Any.string id)
  else if ptype = PROP_SERVER_REFERENCE then some ((extractString buf).map Any.string id)
  else if ptype = PROP_REASON_STRING then some ((extractString buf).map Any.string id)
  else if ptype = PROP_RECEIVE_MAX then some ((extractUint16 buf).map Any.uint16 id)
  else if ptype = PROP_ALIAS_MAX then some ((extractUint16 buf).map Any.uint16 id)
  else if ptype = PROP_MAX_QOS then some ((extractBool buf).map Any.bool id)
  else if ptype = PROP_RETAIN_AVAILABLE then some ((extractBool buf).map Any.bool id)
  else if ptype = PROP_USER_PROPERTY then some ((extractKeyValue buf).map Any.keyValue id)
  else if ptype = PROP_MAX_PACKET_SIZE then some ((extractUint32 buf).map Any.uint32 id)
  else if ptype = PROP_WILDCARD_SUBSCRIPTION_AVAILABLE then
    some ((extractBool buf).map Any.bool id)
  else if ptype = PROP_SUBSCRIPTION_IDS_AVAILABLE then some ((extractBool buf).map Any.bool id)
  else if ptype = PROP_SHARED_SUBSCTION_AVAILABLE then some ((extractBool buf).map Any.bool id)
  else none

/-- The `for len(buf) != 0 { ... }` loop of `extractProperties`: `some result` when the loop
runs to the end of `buf`, `none` when the `default` case returns early. `fuel` bounds the number
of iterations; every iteration removes the tag byte, so `len(buf)` is enough fuel. -/
def extractPropertiesLoop : Nat → List Nat → List Property → Option (List Property)
  | 0, _, result => some result
  | fuel + 1, buf, result =>
    if buf.length ≠ 0 then
      let (btype, buf) := extractByte buf
      match extractValue btype buf with
      | some (value, buf) =>
        extractPropertiesLoop fuel buf (result ++ [{ Typ := btype, Value := value }])
      | none => none
    else some result

/-- Go `func extractProperties(b []byte) ([]Property, []byte)`; `none` is a panic (in
`extractLength`, or in `b[:length]` when fewer than `length` bytes follow the length field). -/
def extractProperties (b : List Nat) : Option (List Property × List Nat) :=
  match extractLength b with
  | none => none
  | some (length, b) =>
    if length > b.length then none
    else
      let buf := b.take length
      match extractPropertiesLoop buf.length buf [] with
      | none => some ([], [])
      | some result => some (result, b.drop length)

/-- Go `func SessionExpiryIntervalProperty(interval uint32) Property`. -/
def SessionExpiryIntervalProperty (interval : Nat) : Property :=
  { Typ := PROP_SESSION_EXPIRY_INTERVAL, Value := .uint32 interval }

/-- Go `func ReceiveMaxProperty(max uint16) Property`. -/
def ReceiveMaxProperty (max : Nat) : Property :=
  { Typ := PROP_RECEIVE_MAX, Value := .uint16 max }

/-- Go `func AliasMaxProperty(max uint16) Property`. -/
def AliasMaxProperty (max : Nat) : Property :=
  { Typ := PROP_ALIAS_MAX, Value := .uint16 max }

/-- Go `func MaxPacketSizeProperty(size uint32) Property`. -/
def MaxPacketSizeProperty (size : Nat) : Property :=
  { Typ := PROP_MAX_PACKET_SIZE, Value := .uint32 size }

/-- Go `func RequestResponseInfoProperty(b bool) Property`. -/
def RequestResponseInfoProperty (b : Bool) : Property :=
  { Typ := PROP_REQUEST_RESPONSE_INFO, Value := .bool b }

/-- Go `func RequestProblemInfoProperty(b bool) Property`. -/
def RequestProblemInfoProperty (b : Bool) : Property :=
  { Typ := PROP_REQUEST_PROBLEM_INFO, Value := .bool b }

/-- Go `func UserPropertyProperty(key, value string) Property`. -/
def UserPropertyProperty (key value : List Nat) : Property :=
  { Typ := PROP_USER_PROPERTY, Value := .keyValue { Key := key, Value := value } }

/-- Go `func AuthenticationMethodProperty(method string) Property`. -/
def AuthenticationMethodProperty (method : List Nat) : Property :=
  { Typ := PROP_AUTHENTICATION_METHOD, Value := .string method }

/-- Go `func AuthenticationDataProperty(data []byte) Property`. -/
def AuthenticationDataProperty (data : List Nat) : Property :=
  { Typ := PROP_AUTHENTICATION_DATA, Value := .bytes data }

/-- Go `func DelayIntervalProperty(interval uint32) Property`. -/
def DelayIntervalProperty (interval : Nat) : Property :=
  { Typ := PROP_DELAY_INTERVAL, Value := .uint32 interval }

/-- Go `func PayloadFormatProperty(b bool) Property`. -/
def PayloadFormatProperty (b : Bool) : Property :=
  { Typ := PROP_PAYLOAD_FORMAT, Value := .bool b }

/-- Go `func MessageExpiryIntervalProperty(interval uint32) Property`. -/
def MessageExpiryIntervalProperty (interval : Nat) : Property :=
  { Typ := PROP_MESSAGE_EXPIRY_INTERVAL, Value := .uint32 interval }

/-- Go `func ContentTypeProperty(contentType string) Property`. -/
def ContentTypeProperty (contentType : List Nat) : Property :=
  { Typ := PROP_CONTENT_TYPE, Value := .string contentType }

/-- Go `func ResponseTopicProperty(topic string) Property`. -/
def ResponseTopicProperty (topic : List Nat) : Property :=
  { Typ := PROP_RESPONSE_TOPIC, Value := .string topic }

/-- Go `func CorrelationDataProperty(b []byte) Property`. -/
def CorrelationDataProperty (b : List Nat) : Property :=
  { Typ := PROP_CORRELATION_DATA, Value := .bytes b }

/-- Go `func MaxQOSProperty(b bool) Property`. -/
def MaxQOSProperty (b : Bool) : Property :=
  { Typ := PROP_MAX_QOS, Value := .bool b }

/-- Go `func RetainAvailableProperty(b bool) Property`; the source sets `Type: PROP_MAX_QOS`. -/
def RetainAvailableProperty (b : Bool) : Property :=
  { Typ := PROP_MAX_QOS, Value := .bool b }

/-- Go `func AssignedClientIdProperty(clientId string) Property`. -/
def AssignedClientIdProperty (clientId : List Nat) : Property :=
  { Typ := PROP_ASSIGNED_CLIENT_ID, Value := .string clientId }

/-- Go `func ReasonStringProperty(reason string) Property`; the source sets
`Type: PROP_ASSIGNED_CLIENT_ID`. -/
def ReasonStringProperty (reason : List Nat) : Property :=
  { Typ := PROP_ASSIGNED_CLIENT_ID, Value := .string reason }

/-- Go `func WildcardSubscriptionAvailableProperty(b bool) Property`. -/
def WildcardSubscriptionAvailableProperty (b : Bool) : Property :=
  { Typ := PROP_WILDCARD_SUBSCRIPTION_AVAILABLE, Value := .bool b }

/-- Go `func SubscriptionIdsAvailableProperty(b bool) Property`. -/
def SubscriptionIdsAvailableProperty (b : Bool) : Property :=
  { Typ := PROP_SUBSCRIPTION_IDS_AVAILABLE, Value := .bool b }

/-- Go `func ShardSubscriptionAvailableProperty(b bool) Property`. -/
def ShardSubscriptionAvailableProperty (b : Bool) : Property :=
  { Typ := PROP_SHARED_SUBSCTION_AVAILABLE, Value := .bool b }

/-- Go `func ServerKeepAliveProperty(v uint16) Property`. -/
def ServerKeepAliveProperty (v : Nat) : Property :=
  { Typ := PROP_SERVER_KEEP_ALIVE, Value := .uint16 v }

/-- Go `func ResponseInfoProperty(info string) Property`. -/
def ResponseInfoProperty (info : List Nat) : Property :=
  { Typ := PROP_RESPONSE_INFO, Value := .string info }

/-- Go `func ServerReferenceProperty(ref string) Property`. -/
def ServerReferenceProperty (ref : List Nat) : Property :=
  { Typ := PROP_SERVER_REFERENCE, Value := .string ref }

/-! ## mqtt.go -/

/-- Go `CONNECT PacketType = 1 << 4`. -/
def CONNECT : Nat := 1 <<< 4

/-- Go `CONNACK PacketType = 2 << 4`. -/
def CONNACK : Nat := 2 <<< 4

/-- Go `DISCONNECT PacketType = 14 << 4`. -/
def DISCONNECT : Nat := 14 <<< 4

def REASON_SUCCESS : Nat := 0

def QOS_AT_MOST_ONCE : Nat := 0
def QOS_AT_LEAST_ONCE : Nat := 1
def QOS_EXACTLY_ONCE : Nat := 2

/-- The four `error` values a decoder returns, named after the message each carries. -/
inductive DecodeError where
  | bufferIsEmpty
  | controlTypeIsNot
  | lengthIsNotEqual
  | tooManyBytes
deriving DecidableEq

/-- What a call of a decoder does: returns a packet with a `nil` error, returns a non-`nil`
error (the partly filled packet returned with it is not modelled), or panics. -/
inductive Outcome (α : Type) where
  | ok (packet : α)
  | error (err : DecodeError)
  | panic
deriving DecidableEq

/-- Go `type Connect struct`; the defaults are Go's zero values. -/
structure Connect where
  Name : List Nat := []
  Version : Nat := 0
  WillRetain : Bool := false
  QOS : Nat := 0
  CleanStart : Bool := false
  KeepAlive : Nat := 0
  Properties : List Property := []
  ClientId : List Nat := []
  WillProperties : List Property := []
  WillTopic : List Nat := []
  WillPayload : List Nat := []
  Username : List Nat := []
  Password : List Nat := []
deriving DecidableEq

/-- Go `func ConnectFromBytes(b []byte) (Connect, error)`. -/
def ConnectFromBytes (b : List Nat) : Outcome Connect :=
  match b with
  | [] => .error .bufferIsEmpty
  | b0 :: b1 =>
    if b0 &&& 0xf0 ≠ CONNECT then .error .controlTypeIsNot
    else
      match extractLength b1 with
      | none => .panic
      | some (length, buf) =>
        if buf.length ≠ length then .error .lengthIsNotEqual
        else
          let (name, buf) := extractString buf
          let (version, buf) := extractByte buf
          let (flags, buf) := extractByte buf
          let useUsername := decide (flags &&& 128 = 128)
          let usePassword := decide (flags &&& 64 = 64)
          let willRetain := decide (flags &&& 32 = 32)
          let qos := flags &&& 24
          let useWill := decide (flags &&& 4 = 4)
          let cleanStart := decide (flags &&& 2 = 2)
          let (keepAlive, buf) := extractUint16 buf
          match extractProperties buf with
          | none => .panic
          | some (properties, buf) =>
            let (clientId, buf) := extractString buf
            let will : Option (List Property × List Nat × List Nat × List Nat) :=
              if useWill then
                match extractProperties buf with
                | none => none
                | some (willProperties, buf) =>
                  let (willTopic, buf) := extractString buf
                  let (willPayload, buf) := extractBinary buf
                  some (willProperties, willTopic, willPayload, buf)
              else some ([], [], [], buf)
            match will with
            | none => .panic
            | some (willProperties, willTopic, willPayload, buf) =>
              let (username, buf) := if useUsername then extractString buf else ([], buf)
              let (password, buf) := if usePassword then extractBinary buf else ([], buf)
              if buf.length ≠ 0 then .error .tooManyBytes
              else
                .ok
                  { Name := name, Version := version, WillRetain := willRetain, QOS := qos,
                    CleanStart := cleanStart, KeepAlive := keepAlive, Properties := properties,
                    ClientId := clientId, WillProperties := willProperties,
                    WillTopic := willTopic, WillPayload := willPayload, Username := username,
                    Password := password }

/-- Go `func (c Connect) UseUsername() bool`. -/
def Connect.UseUsername (c : Connect) : Bool :=
  decide (c.Username ≠ [])

/-- Go `func (c Connect) UsePassword() bool`. -/
def Connect.UsePassword (c : Connect) : Bool :=
  decide (c.Password.length > 0)

/-- Go `func (c Connect) UseWill() bool`. -/
def Connect.UseWill (c : Connect) : Bool :=
  decide (c.WillProperties.length > 0) && decide (c.WillTopic ≠ []) &&
    decide (c.WillPayload.length > 0)

/-- Go `func (c Connect) version() []byte`. -/
def Connect.version (c : Connect) : List Nat :=
  encodeString c.Name ++ [c.Version]

/-- Go `func (c Connect) flags() byte`. -/
def Connect.flags (c : Connect) : Nat :=
  let result := c.QOS <<< 3 % 256
  let result := if c.UseUsername then result ||| 128 else result
  let result := if c.UsePassword then result ||| 64 else result
  let result := if c.WillRetain then result ||| 32 else result
  let result := if c.UseWill then result ||| 4 else result
  let result := if c.CleanStart then result ||| 2 else result
  result

/-- Go `func (c Connect) payload() []byte`. -/
def Connect.payload (c : Connect) : List Nat :=
  let result := []
  let result := if c.ClientId ≠ [] then result ++ encodeString c.ClientId else result
  let result :=
    if c.WillProperties.length > 0 then result ++ propertyBytes c.WillProperties else result
  let result := if c.WillTopic ≠ [] then result ++ encodeString c.WillTopic else result
  let result := if c.WillPayload.length > 0 then result ++ encodeBinary c.WillPayload else result
  let result := if c.Username ≠ [] then result ++ encodeString c.Username else result
  let result := if c.Password.length > 0 then result ++ encodeBinary c.Password else result
  result

/-- Go `func (c Connect) Bytes() []byte`. -/
def Connect.Bytes (c : Connect) : List Nat :=
  let header := [CONNECT]
  let payload := []
  let payload := payload ++ c.version
  let payload := payload ++ [c.flags]
  let payload := payload ++ encodeUint16 c.KeepAlive
  let payload := payload ++ propertyBytes c.Properties
  let payload := payload ++ c.payload
  let header := header ++ encodeLength payload.length
  header ++ payload

/-- Go `type ConnAck struct`. -/
structure ConnAck where
  SessionPresent : Bool := false
  ReasonCode : Nat := 0
  Properties : List Property := []
deriving DecidableEq

/-- Go `func ConnAckFromBytes(b []byte) (ConnAck, error)`. -/
def ConnAckFromBytes (b : List Nat) : Outcome ConnAck :=
  match b with
  | [] => .error .bufferIsEmpty
  | b0 :: b1 =>
    if b0 &&& 0xf0 ≠ CONNACK then .error .controlTypeIsNot
    else
      match extractLength b1 with
      | none => .panic
      | some (length, buf) =>
        if buf.length ≠ length then .error .lengthIsNotEqual
        else
          let (sessionPresent, buf) := extractBool buf
          let (reasonCode, buf) := extractByte buf
          match extractProperties buf with
          | none => .panic
          | some (properties, buf) =>
            if buf.length ≠ 0 then .error .tooManyBytes
            else
              .ok
                { SessionPresent := sessionPresent, ReasonCode := reasonCode,
                  Properties := properties }

/-- Go `func (ca ConnAck) Bytes() []byte`. -/
def ConnAck.Bytes (ca : ConnAck) : List Nat :=
  let header := [CONNACK]
  let payload := []
  let payload := payload ++ encodeBool ca.SessionPresent
  let payload := payload ++ [ca.ReasonCode]
  let payload := payload ++ propertyBytes ca.Properties
  let header := header ++ encodeLength payload.length
  header ++ payload

/-- Go `type Disconnect struct`. -/
structure Disconnect where
  ReasonCode : Nat := 0
  Properties : List Property := []
deriving DecidableEq

/-- Go `func DisconnectFromBytes(b []byte) (Disconnect, error)`. -/
def DisconnectFromBytes (b : List Nat) : Outcome Disconnect :=
  match b with
  | [] => .error .bufferIsEmpty
  | b0 :: b1 =>
    if b0 &&& 0xf0 ≠ DISCONNECT then .error .controlTypeIsNot
    else
      match extractLength b1 with
      | none => .panic
      | some (length, buf) =>
        if buf.length ≠ length then .error .lengthIsNotEqual
        else
          let (reasonCode, buf) := extractByte buf
          match extractProperties buf with
          | none => .panic
          | some (properties, buf) =>
            if buf.length ≠ 0 then .error .tooManyBytes
            else .ok { ReasonCode := reasonCode, Properties := properties }

/-- Go `func (d Disconnect) Bytes() []byte`. -/
def Disconnect.Bytes (d : Disconnect) : List Nat :=
  let header := [DISCONNECT]
  let payload := []
  let payload := payload ++ [d.ReasonCode]
  let payload := payload ++ propertyBytes d.Properties
  let header := header ++ encodeLength payload.length
  header ++ payload

/-! ## mqtt_test.go -/

/-- The packet of `TestConnect`: name `MQTT`, client id `mqttx_5b75ccbb`, username `test`,
password `test123`, as bytes. -/
def testConnect : Connect :=
  { Name := [77, 81, 84, 84], Version := 5, KeepAlive := 30,
    Properties := [SessionExpiryIntervalProperty 0],
    ClientId := [109, 113, 116, 116, 120, 95, 53, 98, 55, 53, 99, 99, 98, 98],
    Username := [116, 101, 115, 116], Password := [116, 101, 115, 116, 49, 50, 51] }

/-- The packet of `TestConnAck`. -/
def testConnAck : ConnAck :=
  { SessionPresent := false, ReasonCode := REASON_SUCCESS,
    Properties := [AliasMaxProperty 10, ReceiveMaxProperty 10] }

/-- The packet of `TestDisconnect`. -/
def testDisconnect : Disconnect :=
  { ReasonCode := REASON_SUCCESS, Properties := [] }

/-- A CONNECT packet asking for QoS 1: name `MQTT`, version 5, client id `a`. -/
def qosConnect : Connect :=
  { Name := [77, 81, 84, 84], Version := 5, QOS := QOS_AT_LEAST_ONCE, ClientId := [97] }

/-- A CONNECT packet with an empty client id and the username `test`. -/
def anonymousConnect : Connect :=
  { Name := [77, 81, 84, 84], Version := 5, Username := [116, 101, 115, 116] }

/-- A CONNECT packet with a will topic `t` but no will properties and no will payload: name
`MQTT`, version 5, client id `a`. -/
def willTopicConnect : Connect :=
  { Name := [77, 81, 84, 84], Version := 5, ClientId := [97], WillTopic := [116] }

/-- A CONNECT packet with a will topic `t` and a will payload `[1]` but no will properties:
name `MQTT`, version 5, client id `a`. -/
def willTopicPayloadConnect : Connect :=
  { Name := [77, 81, 84, 84], Version := 5, ClientId := [97], WillTopic := [116],
    WillPayload := [1] }

/-- A CONNECT packet with QoS 2, clean start, a will (one will property, topic `t`, payload
`[1]`) and the username `u`: name `MQTT`, version 5, client id `a`. -/
def willConnect : Connect :=
  { Name := [77, 81, 84, 84], Version := 5, QOS := QOS_EXACTLY_ONCE, CleanStart := true,
    ClientId := [97], WillProperties := [{ Typ := PROP_DELAY_INTERVAL, Value := Any.uint32 5 }],
    WillTopic := [116], WillPayload := [1], Username := [117] }

/-- A property list with one property of each of the six kinds: PAYLOAD_FORMAT = true,
SESSION_EXPIRY_INTERVAL = 7, SERVER_KEEP_ALIVE = 300, CONTENT_TYPE = `a`, CORRELATION_DATA =
`[1, 2]` and the user property `k` = `v`. -/
def mixedProperties : List Property :=
  [PayloadFormatProperty true, SessionExpiryIntervalProperty 7, ServerKeepAliveProperty 300,
    ContentTypeProperty [97], CorrelationDataProperty [1, 2], UserPropertyProperty [107] [118]]

/-! ## Notions used in the statements -/

/-- The 25 property identifiers of the tag table. -/
def knownTags : List Nat :=
  [1, 2, 3, 8, 9, 17, 18, 19, 21, 22, 23, 24, 25, 26, 28, 31, 33, 34, 36, 37, 38, 39, 40, 41, 42]

/-- The identifiers the tag table maps to a bool. -/
def boolTags : List Nat := [1, 23, 25, 36, 37, 40, 41, 42]

/-- The identifiers the tag table maps to a 32-bit integer. -/
def uint32Tags : List Nat := [2, 17, 24, 39]

/-- The identifiers the tag table maps to a 16-bit integer. -/
def uint16Tags : List Nat := [19, 33, 34]

/-- The identifiers the tag table maps to a string. -/
def stringTags : List Nat := [3, 8, 18, 21, 26, 28, 31]

/-- The identifiers the tag table maps to a binary blob. -/
def binaryTags : List Nat := [9, 22]

/-- The identifier the tag table maps to a key/value pair of strings. -/
def keyValueTags : List Nat := [38]

/-- A property carries a value of the kind the tag table assigns to its tag: the value is in the
range of its Go type, and a string or binary is shorter than 65535 bytes. -/
def Property.wellKinded (p : Property) : Bool :=
  match p.Value with
  | .bool _ => decide (p.Typ ∈ boolTags)
  | .uint32 val => decide (p.Typ ∈ uint32Tags) && decide (val < 2 ^ 32)
  | .uint16 val => decide (p.Typ ∈ uint16Tags) && decide (val < 2 ^ 16)
  | .string val => decide (p.Typ ∈ stringTags) && decide (val.length < 65535)
  | .bytes val => decide (p.Typ ∈ binaryTags) && decide (val.length < 65535)
  | .keyValue val =>
    decide (p.Typ ∈ keyValueTags) && decide (val.Key.length < 65535) &&
      decide (val.Value.length < 65535)
  | .byte _ => false
  | .other => false

/-- Parsing the list region `buf` entry by entry reads, as a property tag, a byte that is not
one of the 25 known identifiers: either the first byte of `buf` is such a byte, or it is a known
tag and the same holds for what is left of `buf` after that tag's value has been decoded. -/
inductive ReadsUnknownTag : List Nat → Prop where
  | here (tag : Nat) (rest : List Nat) : tag ∉ knownTags → ReadsUnknownTag (tag :: rest)
  | later (tag : Nat) (rest : List Nat) (value : Any) (buf : List Nat) :
      extractValue tag rest = some (value, buf) → ReadsUnknownTag buf →
      ReadsUnknownTag (tag :: rest)

/-- The CONNECT body as the layout of the specification has it: name, version, flags,
keep-alive, property list and client id, then the three will parts when the has-will bit of the
flags byte is set, the username when the has-username bit is set and the password when the
has-password bit is set. -/
def Connect.claimedBody (c : Connect) : List Nat :=
  encodeString c.Name ++ [c.Version] ++ [c.flags] ++ encodeUint16 c.KeepAlive ++
    propertyBytes c.Properties ++ encodeString c.ClientId ++
    (if c.flags &&& 4 = 4 then
      propertyBytes c.WillProperties ++ encodeString c.WillTopic ++ encodeBinary c.WillPayload
    else []) ++
    (if c.flags &&& 128 = 128 then encodeString c.Username else []) ++
    (if c.flags &&& 64 = 64 then encodeBinary c.Password else [])

/-- The CONNECT body with each will part present exactly when its own field is non-empty: name,
version, flags, keep-alive, property list and client id, then the will property list when
`WillProperties` is non-empty, the will topic when `WillTopic` is non-empty, the will payload
when `WillPayload` is non-empty, the username when `Username` is non-empty and the password when
`Password` is non-empty. -/
def Connect.bodyLayout (c : Connect) : List Nat :=
  encodeString c.Name ++ [c.Version] ++ [c.flags] ++ encodeUint16 c.KeepAlive ++
    propertyBytes c.Properties ++ encodeString c.ClientId ++
    (if c.WillProperties ≠ [] then propertyBytes c.WillProperties else []) ++
    (if c.WillTopic ≠ [] then encodeString c.WillTopic else []) ++
    (if c.WillPayload ≠ [] then encodeBinary c.WillPayload else []) ++
    (if c.Username ≠ [] then encodeString c.Username else []) ++
    (if c.Password ≠ [] then encodeBinary c.Password else [])

/-- The value the tag table assigns to the bytes `v` that follow the tag byte `tag`: the result
of the primitive decoder of the kind the table lists for `tag`. -/
def tableValue (tag : Nat) (v : List Nat) : Any :=
  if tag ∈ boolTags then Any.bool (extractBool v).1
  else if tag ∈ uint32Tags then Any.uint32 (extractUint32 v).1
  else if tag ∈ uint16Tags then Any.uint16 (extractUint16 v).1
  else if tag ∈ stringTags then Any.string (extractString v).1
  else if tag ∈ binaryTags then Any.bytes (extractBinary v).1
  else if tag ∈ keyValueTags then Any.keyValue (extractKeyValue v).1
  else Any.other

/-- The number a boolean contributes to a sum of flag bits: 1 when it holds, 0 otherwise. -/
def bit (b : Bool) : Nat :=
  if b then 1 else 0

/-! ## Variable-length integers -/

theorem and_127_of_lt : ∀ a < 128, a &&& 127 = a := by decide

theorem and_128_of_lt : ∀ a < 128, a &&& 128 = 0 := by decide

theorem or_128_and_127 : ∀ a < 128, (a ||| 128) &&& 127 = a := by decide

theorem or_128_and_128 : ∀ a < 128, (a ||| 128) &&& 128 = 128 := by decide

theorem encodeLengthLoop_zero (fuel : Nat) : encodeLengthLoop fuel 0 = [] := by
  cases fuel <;> simp [encodeLengthLoop]

/-- One unfolding of the encoder loop when fuel is left and `l` is positive. -/
theorem encodeLengthLoop_succ (fuel l : Nat) (h : 0 < l) :
    encodeLengthLoop (fuel + 1) l =
      (if l / 128 > 0 then l % 128 ||| 128 else l % 128) :: encodeLengthLoop fuel (l / 128) := by
  have h128 : l % 128 % 256 = l % 128 := by omega
  simp [encodeLengthLoop, h, h128]

/-- The decoder loop undoes the encoder loop: started with multiplier `mult` and accumulator
`result`, on the encoding of `l` followed by `t` it stops right before `t`. -/
theorem extractLengthLoop_encodeLengthLoop (fuel : Nat) :
    ∀ (l mult result : Nat) (t : List Nat), 0 < l → l ≤ fuel → 0 < mult →
      result + l * mult < 2 ^ 64 →
      extractLengthLoop mult result (encodeLengthLoop fuel l ++ t) = some (result + l * mult, t) := by
  induction fuel with
  | zero => intro l mult result t h0 hf; omega
  | succ fuel ih =>
    intro l mult result t h0 hf hm hlt
    rw [encodeLengthLoop_succ fuel l h0]
    have hsplit : l * mult = l % 128 * mult + l / 128 * (mult * 128) := by
      have := Nat.div_add_mod l 128
      calc l * mult = (128 * (l / 128) + l % 128) * mult := by rw [this]
        _ = l % 128 * mult + l / 128 * (mult * 128) := by ring
    have ha : l % 128 < 128 := Nat.mod_lt _ (by norm_num)
    by_cases hq : l / 128 > 0
    · have hmult : mult * 128 < 2 ^ 64 := by
        have : 1 * (mult * 128) ≤ l / 128 * (mult * 128) := Nat.mul_le_mul_right _ hq
        omega
      have h1 : l % 128 * mult % 2 ^ 64 = l % 128 * mult := Nat.mod_eq_of_lt (by omega)
      have h2 : (result + l % 128 * mult) % 2 ^ 64 = result + l % 128 * mult :=
        Nat.mod_eq_of_lt (by omega)
      have h3 : mult * 128 % 2 ^ 64 = mult * 128 := Nat.mod_eq_of_lt hmult
      simp only [hq, if_true, List.cons_append, extractLengthLoop, or_128_and_127 _ ha,
        or_128_and_128 _ ha, h1, h2, h3, List.append_eq]
      rw [if_neg (by decide)]
      rw [ih (l / 128) (mult * 128) (result + l % 128 * mult) t hq (by omega) (by omega)
        (by omega)]
      congr 2
      omega
    · have hl : l / 128 = 0 := by omega
      have hmod : l % 128 = l := by omega
      have h1 : l * mult % 2 ^ 64 = l * mult := Nat.mod_eq_of_lt (by omega)
      have h2 : (result + l * mult) % 2 ^ 64 = result + l * mult := Nat.mod_eq_of_lt hlt
      have hl128 : l < 128 := by omega
      simp only [hl, hmod, gt_iff_lt, lt_irrefl, if_false, encodeLengthLoop_zero,
        List.cons_append, List.nil_append, extractLengthLoop, and_127_of_lt l hl128,
        and_128_of_lt l hl128, h1, h2, if_true, List.append_eq]

/-- Decoding the encoding of a 64-bit `n` followed by any trailer gives back `n` and the
trailer. -/
theorem extractLength_encodeLength_append (n : Nat) (t : List Nat) (hn : n < 2 ^ 64) :
    extractLength (encodeLength n ++ t) = some (n, t) := by
  unfold extractLength encodeLength
  by_cases h0 : n = 0
  · subst h0
    simp [extractLengthLoop]
  · rw [if_neg h0]
    have := extractLengthLoop_encodeLengthLoop n n 1 0 t (by omega) (le_refl _) (by norm_num)
      (by omega)
    simpa using this

/-- C4: for every unsigned 64-bit `n` and every trailer `t`, `extractLength` applied to
`encodeLength n` followed by `t` returns `n` and `t`; with no trailer it returns `n` and the
empty slice; the test case `n = 301` encodes as `[173, 2]` and decodes with trailer
`[8, 9, 10]`. -/
theorem C4_length_roundtrip (n : Nat) (t : List Nat) (hn : n < 2 ^ 64) :
    extractLength (encodeLength n ++ t) = some (n, t) ∧
    extractLength (encodeLength n) = some (n, []) ∧
    encodeLength 301 = [173, 2] ∧
    extractLength (encodeLength 301 ++ [8, 9, 10]) = some (301, [8, 9, 10]) := by
  refine ⟨extractLength_encodeLength_append n t hn, ?_, by decide, by decide⟩
  simpa using extractLength_encodeLength_append n [] hn

theorem C4_length_roundtrip_witness :
    (2 ^ 64 - 1 < 2 ^ 64) ∧
    (extractLength (encodeLength (2 ^ 64 - 1) ++ [7]) = some (2 ^ 64 - 1, [7]) ∧
    extractLength (encodeLength (2 ^ 64 - 1)) = some (2 ^ 64 - 1, []) ∧
    encodeLength 301 = [173, 2] ∧
    extractLength (encodeLength 301 ++ [8, 9, 10]) = some (301, [8, 9, 10])) :=
  ⟨by norm_num, C4_length_roundtrip (2 ^ 64 - 1) [7] (by norm_num)⟩

/-! ## Primitive round trips -/

theorem extractUint16_encodeUint16 (i : Nat) (t : List Nat) (hi : i < 65536) :
    extractUint16 (encodeUint16 i ++ t) = (i, t) := by
  simp only [encodeUint16, List.cons_append, List.nil_append, extractUint16, Prod.mk.injEq,
    and_true]
  omega

theorem extractUint32_encodeUint32 (i : Nat) (t : List Nat) (hi : i < 4294967296) :
    extractUint32 (encodeUint32 i ++ t) = (i, t) := by
  simp only [encodeUint32, List.cons_append, List.nil_append, extractUint32, Prod.mk.injEq,
    and_true]
  omega

theorem extractBool_encodeBool (v : Bool) (t : List Nat) :
    extractBool (encodeBool v ++ t) = (v, t) := by
  cases v <;> simp [encodeBool, extractBool]

theorem extractString_encodeString (s t : List Nat) (hs : s.length < 65535) :
    extractString (encodeString s ++ t) = (s, t) := by
  have h1 : ¬ s.length ≥ MAX_UINT16 := by simp [MAX_UINT16]; omega
  have h2 : s.length % 65536 = s.length := by omega
  simp only [encodeString, h1, if_false, h2, List.append_assoc, extractString]
  rw [extractUint16_encodeUint16 _ _ (by omega)]
  simp

theorem extractBinary_encodeBinary (s t : List Nat) (hs : s.length < 65535) :
    extractBinary (encodeBinary s ++ t) = (s, t) := by
  have h1 : ¬ s.length ≥ MAX_UINT16 := by simp [MAX_UINT16]; omega
  have h2 : s.length % 65536 = s.length := by omega
  simp only [encodeBinary, h1, if_false, h2, List.append_assoc, extractBinary]
  rw [extractUint16_encodeUint16 _ _ (by omega)]
  simp

theorem extractKeyValue_encodeKeyValue (kv : KeyValue) (t : List Nat)
    (hk : kv.Key.length < 65535) (hv : kv.Value.length < 65535) :
    extractKeyValue (encodeKeyValue kv ++ t) = (kv, t) := by
  simp only [encodeKeyValue, List.append_assoc, extractKeyValue]
  rw [extractString_encodeString _ _ hk]
  simp only
  rw [extractString_encodeString _ _ hv]

/-- C5: for every string `s` of byte length below 65535 and every trailer `t`,
`extractString (encodeString s ++ t)` returns `s` and `t`. -/
theorem C5_string_roundtrip (s t : List Nat) (hs : s.length < 65535) :
    extractString (encodeString s ++ t) = (s, t) :=
  extractString_encodeString s t hs

/-- The UTF-8 bytes of the test string `Hello 世界` round-trip with the test trailer. -/
theorem C5_string_roundtrip_witness :
    [72, 101, 108, 108, 111, 32, 228, 184, 150, 231, 149, 140].length < 65535 ∧
    extractString
        (encodeString [72, 101, 108, 108, 111, 32, 228, 184, 150, 231, 149, 140] ++ [8, 9, 10]) =
      ([72, 101, 108, 108, 111, 32, 228, 184, 150, 231, 149, 140], [8, 9, 10]) :=
  ⟨by decide, C5_string_roundtrip _ _ (by decide)⟩

/-- C6: for every uint16 `i` and trailer `t`, `encodeUint16 i` is the two big-endian bytes
`[i / 256, i mod 256]` and decoding it followed by `t` returns `i` and `t`; for every uint32 `j`,
`encodeUint32 j` is its four big-endian bytes and decoding it followed by `t` returns `j` and
`t`; 30 encodes as `[0, 30]`. -/
theorem C6_fixed_width_roundtrip (i j : Nat) (t : List Nat) (hi : i < 2 ^ 16) (hj : j < 2 ^ 32) :
    encodeUint16 i = [i / 256, i % 256] ∧
    extractUint16 (encodeUint16 i ++ t) = (i, t) ∧
    encodeUint32 j = [j / 2 ^ 24, j / 2 ^ 16 % 256, j / 2 ^ 8 % 256, j % 256] ∧
    extractUint32 (encodeUint32 j ++ t) = (j, t) ∧
    encodeUint16 30 = [0, 30] ∧
    extractUint16 (encodeUint16 30 ++ [8, 9, 10]) = (30, [8, 9, 10]) := by
  refine ⟨?_, extractUint16_encodeUint16 i t (by omega), ?_,
    extractUint32_encodeUint32 j t (by omega), by decide, by decide⟩
  · have : i / 256 % 256 = i / 256 := by omega
    simp [encodeUint16, this]
  · have : j / 16777216 % 256 = j / 16777216 := by omega
    simp [encodeUint32, this]

theorem C6_fixed_width_roundtrip_witness :
    (65535 < 2 ^ 16 ∧ 4294967295 < 2 ^ 32) ∧
    (encodeUint16 65535 = [65535 / 256, 65535 % 256] ∧
    extractUint16 (encodeUint16 65535 ++ [1]) = (65535, [1]) ∧
    encodeUint32 4294967295 =
      [4294967295 / 2 ^ 24, 4294967295 / 2 ^ 16 % 256, 4294967295 / 2 ^ 8 % 256,
        4294967295 % 256] ∧
    extractUint32 (encodeUint32 4294967295 ++ [1]) = (4294967295, [1]) ∧
    encodeUint16 30 = [0, 30] ∧
    extractUint16 (encodeUint16 30 ++ [8, 9, 10]) = (30, [8, 9, 10])) :=
  ⟨⟨by norm_num, by norm_num⟩, C6_fixed_width_roundtrip 65535 4294967295 [1] (by norm_num)
    (by norm_num)⟩

/-! ## Property lists -/

theorem extractBool_length_le (b : List Nat) : (extractBool b).2.length ≤ b.length := by
  cases b <;> simp [extractBool]

theorem extractUint16_length_le (b : List Nat) : (extractUint16 b).2.length ≤ b.length := by
  unfold extractUint16
  split <;> simp
  omega

theorem extractUint32_length_le (b : List Nat) : (extractUint32 b).2.length ≤ b.length := by
  unfold extractUint32
  split <;> simp
  omega

theorem extractString_length_le (b : List Nat) : (extractString b).2.length ≤ b.length := by
  have := extractUint16_length_le b
  simp only [extractString, List.length_drop]
  omega

theorem extractBinary_length_le (b : List Nat) : (extractBinary b).2.length ≤ b.length := by
  have := extractUint16_length_le b
  simp only [extractBinary, List.length_drop]
  omega

theorem extractKeyValue_length_le (b : List Nat) : (extractKeyValue b).2.length ≤ b.length := by
  have h1 := extractString_length_le b
  have h2 := extractString_length_le (extractString b).2
  simp only [extractKeyValue]
  omega

/-- The values of the 25 property identifiers. -/
theorem PROP_values :
    PROP_PAYLOAD_FORMAT = 1 ∧ PROP_MESSAGE_EXPIRY_INTERVAL = 2 ∧ PROP_CONTENT_TYPE = 3 ∧
    PROP_RESPONSE_TOPIC = 8 ∧ PROP_CORRELATION_DATA = 9 ∧ PROP_SESSION_EXPIRY_INTERVAL = 17 ∧
    PROP_ASSIGNED_CLIENT_ID = 18 ∧ PROP_SERVER_KEEP_ALIVE = 19 ∧
    PROP_AUTHENTICATION_METHOD = 21 ∧ PROP_AUTHENTICATION_DATA = 22 ∧
    PROP_REQUEST_PROBLEM_INFO = 23 ∧ PROP_DELAY_INTERVAL = 24 ∧
    PROP_REQUEST_RESPONSE_INFO = 25 ∧ PROP_RESPONSE_INFO = 26 ∧ PROP_SERVER_REFERENCE = 28 ∧
    PROP_REASON_STRING = 31 ∧ PROP_RECEIVE_MAX = 33 ∧ PROP_ALIAS_MAX = 34 ∧ PROP_MAX_QOS = 36 ∧
    PROP_RETAIN_AVAILABLE = 37 ∧ PROP_USER_PROPERTY = 38 ∧ PROP_MAX_PACKET_SIZE = 39 ∧
    PROP_WILDCARD_SUBSCRIPTION_AVAILABLE = 40 ∧ PROP_SUBSCRIPTION_IDS_AVAILABLE = 41 ∧
    PROP_SHARED_SUBSCTION_AVAILABLE = 42 := by
  decide

/-- The `switch` of `extractProperties` decodes a bool for the tags the table maps to bool. -/
theorem extractValue_bool (ptype : Nat) (buf : List Nat) (h : ptype ∈ boolTags) :
    extractValue ptype buf = some ((extractBool buf).map Any.bool id) := by
  simp only [boolTags, List.mem_cons, List.mem_singleton, List.not_mem_nil, or_false] at h
  rcases h with rfl | rfl | rfl | rfl | rfl | rfl | rfl | rfl <;>
    simp [extractValue, PROP_values]

theorem extractValue_uint32 (ptype : Nat) (buf : List Nat) (h : ptype ∈ uint32Tags) :
    extractValue ptype buf = some ((extractUint32 buf).map Any.uint32 id) := by
  simp only [uint32Tags, List.mem_cons, List.mem_singleton, List.not_mem_nil, or_false] at h
  rcases h with rfl | rfl | rfl | rfl <;> simp [extractValue, PROP_values]

theorem extractValue_uint16 (ptype : Nat) (buf : List Nat) (h : ptype ∈ uint16Tags) :
    extractValue ptype buf = some ((extractUint16 buf).map Any.uint16 id) := by
  simp only [uint16Tags, List.mem_cons, List.mem_singleton, List.not_mem_nil, or_false] at h
  rcases h with rfl | rfl | rfl <;> simp [extractValue, PROP_values]

theorem extractValue_string (ptype : Nat) (buf : List Nat) (h : ptype ∈ stringTags) :
    extractValue ptype buf = some ((extractString buf).map Any.string id) := by
  simp only [stringTags, List.mem_cons, List.mem_singleton, List.not_mem_nil, or_false] at h
  rcases h with rfl | rfl | rfl | rfl | rfl | rfl | rfl <;> simp [extractValue, PROP_values]

theorem extractValue_binary (ptype : Nat) (buf : List Nat) (h : ptype ∈ binaryTags) :
    extractValue ptype buf = some ((extractBinary buf).map Any.bytes id) := by
  simp only [binaryTags, List.mem_cons, List.mem_singleton, List.not_mem_nil, or_false] at h
  rcases h with rfl | rfl <;> simp [extractValue, PROP_values]

theorem extractValue_keyValue (ptype : Nat) (buf : List Nat) (h : ptype ∈ keyValueTags) :
    extractValue ptype buf = some ((extractKeyValue buf).map Any.keyValue id) := by
  simp only [keyValueTags, List.mem_singleton] at h
  subst h
  simp [extractValue, PROP_values]

/-- The six groups of the tag table make up the 25 known identifiers. -/
theorem knownTags_groups (ptype : Nat) :
    ptype ∈ knownTags ↔
      ptype ∈ boolTags ∨ ptype ∈ uint32Tags ∨ ptype ∈ uint16Tags ∨ ptype ∈ stringTags ∨
        ptype ∈ binaryTags ∨ ptype ∈ keyValueTags := by
  simp only [knownTags, boolTags, uint32Tags, uint16Tags, stringTags, binaryTags, keyValueTags,
    List.mem_cons, List.mem_singleton, List.not_mem_nil, or_false]
  omega

/-- The `switch` of `extractProperties` takes its `default` case exactly for the bytes outside
the 25 known identifiers. -/
theorem extractValue_eq_none_iff (ptype : Nat) (buf : List Nat) :
    extractValue ptype buf = none ↔ ptype ∉ knownTags := by
  by_cases h : ptype ∈ knownTags
  · simp only [h, not_true_eq_false, iff_false]
    rcases (knownTags_groups ptype).mp h with h | h | h | h | h | h
    · rw [extractValue_bool _ _ h]; simp
    · rw [extractValue_uint32 _ _ h]; simp
    · rw [extractValue_uint16 _ _ h]; simp
    · rw [extractValue_string _ _ h]; simp
    · rw [extractValue_binary _ _ h]; simp
    · rw [extractValue_keyValue _ _ h]; simp
  · simp only [h, not_false_eq_true, iff_true]
    simp only [knownTags, List.mem_cons, List.mem_singleton, List.not_mem_nil, or_false,
      not_or] at h
    simp [extractValue, PROP_values, h]

theorem map_snd_length_le {α : Type} (g : α → Any) (r : α × List Nat) (buf : List Nat)
    (value : Any) (rest : List Nat) (hr : r.2.length ≤ buf.length)
    (h : some (r.map g id) = some (value, rest)) : rest.length ≤ buf.length := by
  simp only [Option.some.injEq, Prod.map, Prod.mk.injEq, id] at h
  obtain ⟨-, rfl⟩ := h
  exact hr

/-- Decoding a property value never returns more bytes than it was given. -/
theorem extractValue_length_le (ptype : Nat) (buf : List Nat) (value : Any) (rest : List Nat)
    (h : extractValue ptype buf = some (value, rest)) : rest.length ≤ buf.length := by
  by_cases hk : ptype ∈ knownTags
  · rcases (knownTags_groups ptype).mp hk with hg | hg | hg | hg | hg | hg
    · rw [extractValue_bool _ _ hg] at h
      exact map_snd_length_le _ _ buf value rest (extractBool_length_le buf) h
    · rw [extractValue_uint32 _ _ hg] at h
      exact map_snd_length_le _ _ buf value rest (extractUint32_length_le buf) h
    · rw [extractValue_uint16 _ _ hg] at h
      exact map_snd_length_le _ _ buf value rest (extractUint16_length_le buf) h
    · rw [extractValue_string _ _ hg] at h
      exact map_snd_length_le _ _ buf value rest (extractString_length_le buf) h
    · rw [extractValue_binary _ _ hg] at h
      exact map_snd_length_le _ _ buf value rest (extractBinary_length_le buf) h
    · rw [extractValue_keyValue _ _ hg] at h
      exact map_snd_length_le _ _ buf value rest (extractKeyValue_length_le buf) h
  · rw [(extractValue_eq_none_iff ptype buf).mpr hk] at h
    exact absurd h (by simp)

theorem extractPropertiesLoop_nil (fuel : Nat) (result : List Property) :
    extractPropertiesLoop fuel [] result = some result := by
  cases fuel <;> simp [extractPropertiesLoop]

/-- One iteration of the loop of `extractProperties` on a non-empty buffer. -/
theorem extractPropertiesLoop_cons (fuel tag : Nat) (rest : List Nat) (result : List Property) :
    extractPropertiesLoop (fuel + 1) (tag :: rest) result =
      match extractValue tag rest with
      | some (value, buf) =>
        extractPropertiesLoop fuel buf (result ++ [{ Typ := tag, Value := value }])
      | none => none := by
  simp [extractPropertiesLoop, extractByte]

/-- The length of the buffer is enough fuel: more fuel does not change the outcome of the
loop of `extractProperties`. -/
theorem extractPropertiesLoop_fuel (fuel : Nat) :
    ∀ (fuel2 : Nat) (buf : List Nat) (result : List Property),
      buf.length ≤ fuel → buf.length ≤ fuel2 →
      extractPropertiesLoop fuel buf result = extractPropertiesLoop fuel2 buf result := by
  induction fuel with
  | zero =>
    intro fuel2 buf result h1 _
    have : buf = [] := List.length_eq_zero.mp (by omega)
    subst this
    rw [extractPropertiesLoop_nil, extractPropertiesLoop_nil]
  | succ fuel ih =>
    intro fuel2 buf result h1 h2
    cases buf with
    | nil => rw [extractPropertiesLoop_nil, extractPropertiesLoop_nil]
    | cons tag rest =>
      cases fuel2 with
      | zero => simp at h2
      | succ fuel2 =>
        rw [extractPropertiesLoop_cons, extractPropertiesLoop_cons]
        cases hv : extractValue tag rest with
        | none => rfl
        | some r =>
          obtain ⟨value, buf⟩ := r
          have hle := extractValue_length_le tag rest value buf hv
          simp only [List.length_cons] at h1 h2
          exact ih fuel2 buf _ (by omega) (by omega)

/-- The loop of `extractProperties` returns early exactly when a byte read as a tag is not a
known identifier. -/
theorem extractPropertiesLoop_eq_none_iff (fuel : Nat) :
    ∀ (buf : List Nat) (result : List Property), buf.length ≤ fuel →
      (extractPropertiesLoop fuel buf result = none ↔ ReadsUnknownTag buf) := by
  induction fuel with
  | zero =>
    intro buf result h
    have : buf = [] := List.length_eq_zero.mp (by omega)
    subst this
    rw [extractPropertiesLoop_nil]
    constructor
    · intro h; exact absurd h (by simp)
    · intro h; cases h
  | succ fuel ih =>
    intro buf result h
    cases buf with
    | nil =>
      rw [extractPropertiesLoop_nil]
      constructor
      · intro h; exact absurd h (by simp)
      · intro h; cases h
    | cons tag rest =>
      rw [extractPropertiesLoop_cons]
      cases hv : extractValue tag rest with
      | none =>
        simp only [true_iff]
        exact ReadsUnknownTag.here tag rest ((extractValue_eq_none_iff tag rest).mp hv)
      | some r =>
        obtain ⟨value, buf⟩ := r
        have hle := extractValue_length_le tag rest value buf hv
        simp only [List.length_cons] at h
        simp only
        rw [ih buf _ (by omega)]
        constructor
        · intro hr
          exact ReadsUnknownTag.later tag rest value buf hv hr
        · intro hr
          cases hr with
          | here _ _ hn =>
            have := (extractValue_eq_none_iff tag rest).mpr hn
            rw [this] at hv
            exact absurd hv (by simp)
          | later _ _ value2 buf2 hv2 hr2 =>
            rw [hv] at hv2
            simp only [Option.some.injEq, Prod.mk.injEq] at hv2
            obtain ⟨-, rfl⟩ := hv2
            exact hr2

theorem propertiesBody_foldl (ps : List Property) (init : List Nat) :
    ps.foldl (fun result prop => result ++ prop.Bytes) init = init ++ propertiesBody ps := by
  induction ps generalizing init with
  | nil => simp [propertiesBody]
  | cons p ps ih =>
    simp only [propertiesBody, List.foldl_cons, List.nil_append]
    rw [ih (init ++ p.Bytes), ih p.Bytes, List.append_assoc]

theorem propertiesBody_nil : propertiesBody [] = [] := rfl

theorem propertiesBody_cons (p : Property) (ps : List Property) :
    propertiesBody (p :: ps) = p.Bytes ++ propertiesBody ps := by
  simp only [propertiesBody, List.foldl_cons, List.nil_append]
  exact propertiesBody_foldl ps p.Bytes

/-- A property of the kind its tag asks for is written as its tag byte followed by bytes from
which the `switch` of `extractProperties` reads the value back. -/
theorem extractValue_Bytes (p : Property) (h : p.wellKinded = true) :
    ∃ vb, p.Bytes = p.Typ :: vb ∧ ∀ t, extractValue p.Typ (vb ++ t) = some (p.Value, t) := by
  obtain ⟨typ, value⟩ := p
  cases value with
  | bool val =>
    simp only [Property.wellKinded, decide_eq_true_eq] at h
    refine ⟨encodeBool val, by simp [Property.Bytes], fun t => ?_⟩
    rw [extractValue_bool _ _ h, extractBool_encodeBool]
    rfl
  | byte val => simp [Property.wellKinded] at h
  | uint16 val =>
    simp only [Property.wellKinded, Bool.and_eq_true, decide_eq_true_eq] at h
    refine ⟨encodeUint16 val, by simp [Property.Bytes], fun t => ?_⟩
    rw [extractValue_uint16 _ _ h.1, extractUint16_encodeUint16 _ _ (by omega)]
    rfl
  | uint32 val =>
    simp only [Property.wellKinded, Bool.and_eq_true, decide_eq_true_eq] at h
    refine ⟨encodeUint32 val, by simp [Property.Bytes], fun t => ?_⟩
    rw [extractValue_uint32 _ _ h.1, extractUint32_encodeUint32 _ _ (by omega)]
    rfl
  | bytes val =>
    simp only [Property.wellKinded, Bool.and_eq_true, decide_eq_true_eq] at h
    refine ⟨encodeBinary val, by simp [Property.Bytes], fun t => ?_⟩
    rw [extractValue_binary _ _ h.1, extractBinary_encodeBinary _ _ h.2]
    rfl
  | string val =>
    simp only [Property.wellKinded, Bool.and_eq_true, decide_eq_true_eq] at h
    refine ⟨encodeString val, by simp [Property.Bytes], fun t => ?_⟩
    rw [extractValue_string _ _ h.1, extractString_encodeString _ _ h.2]
    rfl
  | keyValue val =>
    simp only [Property.wellKinded, Bool.and_eq_true, decide_eq_true_eq] at h
    refine ⟨encodeKeyValue val, by simp [Property.Bytes], fun t => ?_⟩
    rw [extractValue_keyValue _ _ h.1.1, extractKeyValue_encodeKeyValue _ _ h.1.2 h.2]
    rfl
  | other => simp [Property.wellKinded] at h

/-- The loop of `extractProperties` reads back, in order, the properties whose encodings make
up its buffer. -/
theorem extractPropertiesLoop_propertiesBody (ps : List Property) :
    ∀ (fuel : Nat) (result : List Property), (∀ p ∈ ps, p.wellKinded = true) →
      (propertiesBody ps).length ≤ fuel →
      extractPropertiesLoop fuel (propertiesBody ps) result = some (result ++ ps) := by
  induction ps with
  | nil =>
    intro fuel result _ _
    rw [propertiesBody_nil, extractPropertiesLoop_nil, List.append_nil]
  | cons p ps ih =>
    intro fuel result hk hfuel
    obtain ⟨vb, hb, hv⟩ := extractValue_Bytes p (hk p (List.mem_cons_self _ _))
    rw [propertiesBody_cons, hb] at hfuel ⊢
    simp only [List.cons_append, List.length_cons, List.length_append] at hfuel
    cases fuel with
    | zero => omega
    | succ fuel =>
      rw [List.cons_append, extractPropertiesLoop_cons, hv]
      simp only
      rw [ih fuel _ (fun q hq => hk q (List.mem_cons_of_mem _ hq)) (by omega)]
      simp

/-- Property-list round trip: a list of properties, each of the kind its tag asks for, written
by `propertyBytes` and followed by any trailer, is read back by `extractProperties` together
with the trailer. -/
theorem extractProperties_propertyBytes (ps : List Property) (t : List Nat)
    (hk : ∀ p ∈ ps, p.wellKinded = true) (hlen : (propertiesBody ps).length < 2 ^ 64) :
    extractProperties (propertyBytes ps ++ t) = some (ps, t) := by
  simp only [extractProperties, propertyBytes, List.append_assoc]
  rw [extractLength_encodeLength_append _ _ hlen]
  simp only [List.length_append, gt_iff_lt, List.take_left', List.drop_left']
  rw [if_neg (by omega), extractPropertiesLoop_propertiesBody ps _ [] hk (le_refl _)]
  simp

/-- Entries of the right kind in front of a region do not keep the parse from reaching an
unknown tag behind them. -/
theorem readsUnknownTag_propertiesBody_append (pre : List Property) (post : List Nat)
    (hk : ∀ p ∈ pre, p.wellKinded = true) (h : ReadsUnknownTag post) :
    ReadsUnknownTag (propertiesBody pre ++ post) := by
  induction pre with
  | nil => simpa [propertiesBody_nil] using h
  | cons p pre ih =>
    obtain ⟨vb, hb, hv⟩ := extractValue_Bytes p (hk p (List.mem_cons_self _ _))
    rw [propertiesBody_cons, hb, List.append_assoc, List.cons_append]
    exact ReadsUnknownTag.later _ _ _ _ (hv _)
      (ih (fun q hq => hk q (List.mem_cons_of_mem _ hq)))

/-! ## Packets -/

theorem propertyBytes_length (ps : List Property) :
    (propertyBytes ps).length =
      (encodeLength (propertiesBody ps).length).length + (propertiesBody ps).length := by
  simp [propertyBytes]

/-- C2: for every ConnAck `ca` whose properties each carry a value of the kind the tag table
assigns to the tag (strings and binaries shorter than 65535 bytes) and whose encoding has a
length that fits in 64 bits, `ConnAckFromBytes (ca.Bytes)` returns `ca` and no error. -/
theorem C2_connack_roundtrip (ca : ConnAck) (hk : ∀ p ∈ ca.Properties, p.wellKinded = true)
    (hlen : ca.Bytes.length < 2 ^ 64) :
    ConnAckFromBytes ca.Bytes = Outcome.ok ca := by
  obtain ⟨sp, rc, ps⟩ := ca
  simp only [ConnAck.Bytes, List.nil_append, List.length_append, List.length_cons,
    List.length_nil, propertyBytes_length] at hlen
  have hbody : (propertiesBody ps).length < 2 ^ 64 := by omega
  have hpayload : (encodeBool sp ++ [rc] ++ propertyBytes ps).length < 2 ^ 64 := by
    simp only [List.length_append, List.length_cons, List.length_nil, propertyBytes_length]
    omega
  have hprops := extractProperties_propertyBytes ps [] hk hbody
  rw [List.append_nil] at hprops
  have hhdr : ¬ (CONNACK &&& 0xf0 ≠ CONNACK) := by decide
  simp only [ConnAck.Bytes, List.nil_append, List.singleton_append, List.cons_append,
    ConnAckFromBytes, hhdr, if_false]
  have hl := extractLength_encodeLength_append _ [] hpayload
  rw [List.append_nil] at hl
  have hl2 := extractLength_encodeLength_append
    (encodeBool sp ++ [rc] ++ propertyBytes ps).length
    (encodeBool sp ++ [rc] ++ propertyBytes ps) hpayload
  rw [hl2]
  simp only [ne_eq, not_true_eq_false, if_false, List.append_assoc,
    extractBool_encodeBool, List.singleton_append, extractByte, hprops, List.length_nil]

/-- The packet of `TestConnAck` is an instance of the round trip. -/
theorem C2_connack_roundtrip_witness :
    (∀ p ∈ testConnAck.Properties, p.wellKinded = true) ∧ testConnAck.Bytes.length < 2 ^ 64 ∧
    ConnAckFromBytes testConnAck.Bytes = Outcome.ok testConnAck :=
  ⟨by decide, by decide, C2_connack_roundtrip testConnAck (by decide) (by decide)⟩

/-- C3: for every Disconnect `d` whose properties each carry a value of the kind the tag table
assigns to the tag (strings and binaries shorter than 65535 bytes) and whose encoding has a
length that fits in 64 bits, `DisconnectFromBytes (d.Bytes)` returns `d` and no error. -/
theorem C3_disconnect_roundtrip (d : Disconnect)
    (hk : ∀ p ∈ d.Properties, p.wellKinded = true) (hlen : d.Bytes.length < 2 ^ 64) :
    DisconnectFromBytes d.Bytes = Outcome.ok d := by
  obtain ⟨rc, ps⟩ := d
  simp only [Disconnect.Bytes, List.nil_append, List.length_append, List.length_cons,
    List.length_nil, propertyBytes_length] at hlen
  have hbody : (propertiesBody ps).length < 2 ^ 64 := by omega
  have hpayload : ([rc] ++ propertyBytes ps).length < 2 ^ 64 := by
    simp only [List.length_append, List.length_cons, List.length_nil, propertyBytes_length]
    omega
  have hprops := extractProperties_propertyBytes ps [] hk hbody
  rw [List.append_nil] at hprops
  have hhdr : ¬ (DISCONNECT &&& 0xf0 ≠ DISCONNECT) := by decide
  simp only [Disconnect.Bytes, List.nil_append, List.singleton_append, List.cons_append,
    DisconnectFromBytes, hhdr, if_false]
  have hl2 := extractLength_encodeLength_append ([rc] ++ propertyBytes ps).length
    ([rc] ++ propertyBytes ps) hpayload
  simp only [List.singleton_append] at hl2
  rw [hl2]
  simp only [ne_eq, not_true_eq_false, if_false, extractByte, hprops, List.length_nil]

/-- The packet of `TestDisconnect` is an instance of the round trip. -/
theorem C3_disconnect_roundtrip_witness :
    (∀ p ∈ testDisconnect.Properties, p.wellKinded = true) ∧
    testDisconnect.Bytes.length < 2 ^ 64 ∧
    DisconnectFromBytes testDisconnect.Bytes = Outcome.ok testDisconnect :=
  ⟨by decide, by decide, C3_disconnect_roundtrip testDisconnect (by decide) (by decide)⟩

/-- The bits of a flags byte assembled as `Connect.flags` does, from a QoS `q` of at most 2 and
the five booleans. -/
theorem flags_bits (q : Nat) (u p r w s : Bool) (hq : q ≤ 2) :
    let result := q <<< 3 % 256
    let result := if u then result ||| 128 else result
    let result := if p then result ||| 64 else result
    let result := if r then result ||| 32 else result
    let result := if w then result ||| 4 else result
    let result := if s then result ||| 2 else result
    decide (result &&& 128 = 128) = u ∧ decide (result &&& 64 = 64) = p ∧
      decide (result &&& 32 = 32) = r ∧ result &&& 24 = 8 * q ∧
      decide (result &&& 4 = 4) = w ∧ decide (result &&& 2 = 2) = s := by
  interval_cases q <;> cases u <;> cases p <;> cases r <;> cases w <;> cases s <;> decide

/-- What `ConnectFromBytes` reads from the flags byte written by `Connect.flags`: the five
booleans come back, the QoS comes back multiplied by 8 (it is masked but not shifted back). -/
theorem Connect.flags_decode (c : Connect) (hq : c.QOS ≤ 2) :
    decide (c.flags &&& 128 = 128) = c.UseUsername ∧
    decide (c.flags &&& 64 = 64) = c.UsePassword ∧
    decide (c.flags &&& 32 = 32) = c.WillRetain ∧
    c.flags &&& 24 = 8 * c.QOS ∧
    decide (c.flags &&& 4 = 4) = c.UseWill ∧
    decide (c.flags &&& 2 = 2) = c.CleanStart :=
  flags_bits c.QOS c.UseUsername c.UsePassword c.WillRetain c.UseWill c.CleanStart hq

/-- The bytes `Connect.payload` writes after the client id, as the decoder expects them: each
optional part is present exactly when its flag is set. -/
theorem Connect.payload_eq (c : Connect)
    (hwill : (c.WillProperties = [] ∧ c.WillTopic = [] ∧ c.WillPayload = []) ∨
      (c.WillProperties ≠ [] ∧ c.WillTopic ≠ [] ∧ c.WillPayload ≠ [])) (hid : c.ClientId ≠ []) :
    c.payload = encodeString c.ClientId ++
      ((if c.UseWill then
          propertyBytes c.WillProperties ++ (encodeString c.WillTopic ++
            encodeBinary c.WillPayload)
        else []) ++
      ((if c.UseUsername then encodeString c.Username else []) ++
        (if c.UsePassword then encodeBinary c.Password else []))) := by
  have hu : c.UseUsername = decide (c.Username ≠ []) := rfl
  have hp : c.UsePassword = decide (c.Password.length > 0) := rfl
  rcases hwill with ⟨h1, h2, h3⟩ | ⟨h1, h2, h3⟩
  · by_cases h4 : c.Username = [] <;> by_cases h5 : c.Password = [] <;>
      simp [Connect.payload, Connect.UseWill, hu, hp, h1, h2, h3, h4, h5, hid,
        List.length_pos]
  · by_cases h4 : c.Username = [] <;> by_cases h5 : c.Password = [] <;>
      simp [Connect.payload, Connect.UseWill, hu, hp, h1, h2, h3, h4, h5, hid,
        List.length_pos]

/-- CONNECT round trip up to the QoS: a packet with a non-empty client id, a QoS of at most 2,
will fields all empty or all non-empty, fields within the range of their Go types and
properties of the kind their tag asks for is read back with every field unchanged except `QOS`,
which comes back multiplied by 8. -/
theorem ConnectFromBytes_Bytes_up_to_QOS (c : Connect)
    (hName : c.Name.length < 65535) (hid : c.ClientId ≠ []) (hidLen : c.ClientId.length < 65535)
    (hTopic : c.WillTopic.length < 65535) (hPayload : c.WillPayload.length < 65535)
    (hUser : c.Username.length < 65535) (hPass : c.Password.length < 65535)
    (hKeep : c.KeepAlive < 2 ^ 16) (hq : c.QOS ≤ 2)
    (hwill : (c.WillProperties = [] ∧ c.WillTopic = [] ∧ c.WillPayload = []) ∨
      (c.WillProperties ≠ [] ∧ c.WillTopic ≠ [] ∧ c.WillPayload ≠ []))
    (hk : ∀ p ∈ c.Properties, p.wellKinded = true)
    (hkw : ∀ p ∈ c.WillProperties, p.wellKinded = true)
    (hlen : c.Bytes.length < 2 ^ 64) :
    ConnectFromBytes c.Bytes = Outcome.ok { c with QOS := 8 * c.QOS } := by
  obtain ⟨hfu, hfp, hfr, hfq, hfw, hfs⟩ := Connect.flags_decode c hq
  have hpay := Connect.payload_eq c hwill hid
  have hB : c.Bytes = CONNECT :: (encodeLength
      (encodeString c.Name ++ (c.Version :: c.flags :: (encodeUint16 c.KeepAlive ++
        (propertyBytes c.Properties ++ c.payload)))).length ++
      (encodeString c.Name ++ (c.Version :: c.flags :: (encodeUint16 c.KeepAlive ++
        (propertyBytes c.Properties ++ c.payload))))) := by
    simp [Connect.Bytes, Connect.version]
  rw [hB] at hlen ⊢
  simp only [List.length_cons, List.length_append, propertyBytes_length] at hlen
  have hbody : (encodeString c.Name ++ (c.Version :: c.flags :: (encodeUint16 c.KeepAlive ++
        (propertyBytes c.Properties ++ c.payload)))).length < 2 ^ 64 := by
    simp only [List.length_cons, List.length_append, propertyBytes_length]
    omega
  have hhdr : ¬ (CONNECT &&& 0xf0 ≠ CONNECT) := by decide
  have hprops := extractProperties_propertyBytes c.Properties c.payload hk (by omega)
  simp only [ConnectFromBytes, hhdr, if_false, extractLength_encodeLength_append _ _ hbody,
    ne_eq, not_true_eq_false, extractString_encodeString _ _ hName, extractByte,
    extractUint16_encodeUint16 _ _ hKeep, hprops, hfu, hfp, hfr, hfq, hfw, hfs]
  have hw : c.UseWill = false →
      c.WillProperties = [] ∧ c.WillTopic = [] ∧ c.WillPayload = [] := by
    intro h
    rcases hwill with h0 | ⟨h1, h2, h3⟩
    · exact h0
    · simp [Connect.UseWill, h1, h2, h3, List.length_pos] at h
  have hu : c.UseUsername = false → c.Username = [] := by
    simp [Connect.UseUsername]
  have hp : c.UsePassword = false → c.Password = [] := by
    simp [Connect.UsePassword]
  have hU0 : extractString (encodeString c.Username) = (c.Username, []) := by
    simpa using extractString_encodeString c.Username [] hUser
  have hP0 : extractBinary (encodeBinary c.Password) = (c.Password, []) := by
    simpa using extractBinary_encodeBinary c.Password [] hPass
  have hPl0 : extractBinary (encodeBinary c.WillPayload) = (c.WillPayload, []) := by
    simpa using extractBinary_encodeBinary c.WillPayload [] hPayload
  rw [hpay] at hlen ⊢
  rw [extractString_encodeString _ _ hidLen]
  cases hW : c.UseWill <;> cases hU : c.UseUsername <;> cases hP : c.UsePassword <;>
    simp only [hW, hU, hP, if_true, if_false, List.length_append, propertyBytes_length,
      List.nil_append, List.append_assoc, Bool.false_eq_true] at hlen ⊢
  all_goals
    first
    | (have hwb : (propertiesBody c.WillProperties).length < 2 ^ 64 := by omega
       simp only [extractProperties_propertyBytes c.WillProperties _ hkw hwb,
         extractString_encodeString _ _ hUser, extractBinary_encodeBinary _ _ hPass,
         extractString_encodeString _ _ hTopic, extractBinary_encodeBinary _ _ hPayload,
         hU0, hP0, hPl0, List.length_nil, not_true_eq_false, if_false, hu, hp, hU, hP])
    | (simp only [extractString_encodeString _ _ hUser, extractBinary_encodeBinary _ _ hPass,
         hU0, hP0, List.length_nil, not_true_eq_false, if_false, hw, hu, hp, hW, hU, hP])

/-- The packet of `TestConnect` is read back unchanged. -/
theorem testConnect_roundtrip : ConnectFromBytes testConnect.Bytes = Outcome.ok testConnect := by
  decide

/-- C1 at a failing input: the encoder writes QoS 1 into bits 4-3 of the flags byte
(`byte(c.QOS) << 3`), the decoder keeps `flags & 24` without shifting it back, so a packet with
QoS 1 is read back with QOS = 8; and a packet with an empty client id and a username is written
without a client-id string, so the decoder takes the username for the client id. -/
theorem C1_connect_roundtrip_fails :
    qosConnect.Bytes = [16, 14, 0, 4, 77, 81, 84, 84, 5, 8, 0, 0, 0, 0, 1, 97] ∧
    ConnectFromBytes qosConnect.Bytes = Outcome.ok { qosConnect with QOS := 8 } ∧
    ConnectFromBytes qosConnect.Bytes ≠ Outcome.ok qosConnect ∧
    ConnectFromBytes anonymousConnect.Bytes =
      Outcome.ok { anonymousConnect with ClientId := [116, 101, 115, 116], Username := [] } ∧
    ConnectFromBytes anonymousConnect.Bytes ≠ Outcome.ok anonymousConnect := by
  decide

/-- C7: for each of the three decoders and every buffer whose first byte has the decoder's type
in its upper nibble and whose remaining-length field is terminated, a decoded remaining length
different from the number of bytes after the field makes the decoder return the length
error. -/
theorem C7_length_mismatch_rejected (c a d : Nat) (rest : List Nat) (n : Nat) (buf : List Nat)
    (hc : c &&& 0xf0 = CONNECT) (ha : a &&& 0xf0 = CONNACK) (hd : d &&& 0xf0 = DISCONNECT)
    (hterm : extractLength rest = some (n, buf)) (hne : buf.length ≠ n) :
    ConnectFromBytes (c :: rest) = Outcome.error DecodeError.lengthIsNotEqual ∧
    ConnAckFromBytes (a :: rest) = Outcome.error DecodeError.lengthIsNotEqual ∧
    DisconnectFromBytes (d :: rest) = Outcome.error DecodeError.lengthIsNotEqual := by
  refine ⟨?_, ?_, ?_⟩
  · simp [ConnectFromBytes, hc, hterm, hne]
  · simp [ConnAckFromBytes, ha, hterm, hne]
  · simp [DisconnectFromBytes, hd, hterm, hne]

/-- A remaining length of 2 in front of a single byte is rejected by all three decoders. -/
theorem C7_length_mismatch_rejected_witness :
    (0x10 &&& 0xf0 = CONNECT ∧ 0x20 &&& 0xf0 = CONNACK ∧ 0xe0 &&& 0xf0 = DISCONNECT ∧
      extractLength [2, 0] = some (2, [0]) ∧ [0].length ≠ 2) ∧
    (ConnectFromBytes [0x10, 2, 0] = Outcome.error DecodeError.lengthIsNotEqual ∧
    ConnAckFromBytes [0x20, 2, 0] = Outcome.error DecodeError.lengthIsNotEqual ∧
    DisconnectFromBytes [0xe0, 2, 0] = Outcome.error DecodeError.lengthIsNotEqual) :=
  ⟨by decide, C7_length_mismatch_rejected 0x10 0x20 0xe0 [2, 0] 2 [0] (by decide) (by decide)
    (by decide) (by decide) (by decide)⟩

/-- C8 at failing inputs: a header-only buffer, an unterminated remaining-length field, an
empty body and a property list that declares more bytes than are present each make a decoder
panic on a slice expression out of range (`b[(idx + 1):]` in `extractLength`, `b[:length]` in
`extractProperties`) instead of returning a packet or an error. -/
theorem C8_malformed_input_panics :
    extractLength [] = none ∧
    extractLength [0x80] = none ∧
    extractProperties [5] = none ∧
    ConnAckFromBytes [0x20] = Outcome.panic ∧
    ConnAckFromBytes [0x20, 0x80] = Outcome.panic ∧
    ConnAckFromBytes [0x20, 0] = Outcome.panic ∧
    ConnAckFromBytes [0x20, 3, 0, 0, 5] = Outcome.panic ∧
    ConnectFromBytes [0x10] = Outcome.panic ∧
    DisconnectFromBytes [0xe0] = Outcome.panic := by
  decide

/-- C9 as stated fails: on `[1, 200, 7]` the list region is the single byte 200, an unknown
tag, and `extractProperties` returns an empty remainder, not the byte 7 that follows the
region. -/
theorem C9_remainder_counterexample :
    ¬ ∀ (b r : List Nat) (L : Nat), extractLength b = some (L, r) → L ≤ r.length →
      ∃ ps, extractProperties b = some (ps, r.drop L) := by
  intro h
  obtain ⟨ps, hps⟩ := h [1, 200, 7] [200, 7] 1 (by decide) (by decide)
  have e : extractProperties [1, 200, 7] = some ([], []) := by decide
  rw [e] at hps
  simp at hps

/-- C9, amended: for every buffer that starts with a terminated byte count `L` followed by at
least `L` bytes, the remainder returned by `extractProperties` is exactly the bytes after the
`L`-byte region when every byte read as a tag in the region is a known identifier, and is empty
(with an empty property list) when the parse aborts on an unknown tag. -/
theorem C9_remainder_after_region (b r : List Nat) (L : Nat)
    (hlen : extractLength b = some (L, r)) (hfull : L ≤ r.length) :
    (¬ ReadsUnknownTag (r.take L) → ∃ ps, extractProperties b = some (ps, r.drop L)) ∧
    (ReadsUnknownTag (r.take L) → extractProperties b = some ([], [])) := by
  have hiff := extractPropertiesLoop_eq_none_iff (r.take L).length (r.take L) [] (le_refl _)
  simp only [extractProperties, hlen, gt_iff_lt, if_neg (Nat.not_lt.mpr hfull)]
  constructor
  · intro hno
    cases hloop : extractPropertiesLoop (r.take L).length (r.take L) [] with
    | none => exact absurd (hiff.mp hloop) hno
    | some result => exact ⟨result, rfl⟩
  · intro hunk
    rw [hiff.mpr hunk]

/-- A region holding RECEIVE_MAX = 10, followed by the bytes 7 and 8. -/
theorem C9_remainder_after_region_witness :
    (extractLength [3, 33, 0, 10, 7, 8] = some (3, [33, 0, 10, 7, 8]) ∧
      3 ≤ [33, 0, 10, 7, 8].length) ∧
    ((¬ ReadsUnknownTag ([33, 0, 10, 7, 8].take 3) →
        ∃ ps, extractProperties [3, 33, 0, 10, 7, 8] = some (ps, [33, 0, 10, 7, 8].drop 3)) ∧
    (ReadsUnknownTag ([33, 0, 10, 7, 8].take 3) →
        extractProperties [3, 33, 0, 10, 7, 8] = some ([], []))) :=
  ⟨by decide, C9_remainder_after_region [3, 33, 0, 10, 7, 8] [33, 0, 10, 7, 8] 3 (by decide)
    (by decide)⟩

/-- C10: for every buffer whose `L`-byte list region is fully present, if a byte read as a
property tag is outside the 25 known identifiers, `extractProperties` returns the empty
property list, whatever was parsed before that byte and whatever follows it. -/
theorem C10_unknown_tag_empties_list (b r : List Nat) (L : Nat)
    (hlen : extractLength b = some (L, r)) (hfull : L ≤ r.length)
    (hunk : ReadsUnknownTag (r.take L)) :
    ∃ rest, extractProperties b = some ([], rest) := by
  have hiff := extractPropertiesLoop_eq_none_iff (r.take L).length (r.take L) [] (le_refl _)
  simp only [extractProperties, hlen, gt_iff_lt, if_neg (Nat.not_lt.mpr hfull)]
  rw [hiff.mpr hunk]
  exact ⟨[], rfl⟩

/-- A region holding ALIAS_MAX = 10, the unknown tag 200 and RECEIVE_MAX = 10: the entry before
the unknown tag is discarded and the entry after it is ignored. -/
theorem C10_unknown_tag_empties_list_witness :
    (extractLength [7, 34, 0, 10, 200, 33, 0, 10, 9, 9] =
        some (7, [34, 0, 10, 200, 33, 0, 10, 9, 9]) ∧
      7 ≤ [34, 0, 10, 200, 33, 0, 10, 9, 9].length ∧
      ReadsUnknownTag ([34, 0, 10, 200, 33, 0, 10, 9, 9].take 7)) ∧
    ∃ rest, extractProperties [7, 34, 0, 10, 200, 33, 0, 10, 9, 9] = some ([], rest) :=
  have hunk : ReadsUnknownTag ([34, 0, 10, 200, 33, 0, 10, 9, 9].take 7) :=
    ReadsUnknownTag.later 34 [0, 10, 200, 33, 0, 10] (Any.uint16 10) [200, 33, 0, 10]
      (by decide) (ReadsUnknownTag.here 200 [33, 0, 10] (by decide))
  ⟨⟨by decide, by decide, hunk⟩,
    C10_unknown_tag_empties_list [7, 34, 0, 10, 200, 33, 0, 10, 9, 9]
      [34, 0, 10, 200, 33, 0, 10, 9, 9] 7 (by decide) (by decide) hunk⟩

/-! ## Flags, framing and the permissive primitives -/

/-- The flags byte assembled as `Connect.flags` does, from a QoS `q` of at most 2 and the five
booleans, is the sum of the six fields at their bit positions. -/
theorem flags_sum (q : Nat) (u p r w s : Bool) (hq : q ≤ 2) :
    let result := q <<< 3 % 256
    let result := if u then result ||| 128 else result
    let result := if p then result ||| 64 else result
    let result := if r then result ||| 32 else result
    let result := if w then result ||| 4 else result
    let result := if s then result ||| 2 else result
    result = 128 * bit u + 64 * bit p + 32 * bit r + 8 * q + 4 * bit w + 2 * bit s := by
  interval_cases q <;> cases u <;> cases p <;> cases r <;> cases w <;> cases s <;> decide

theorem Connect.UsePassword_eq (c : Connect) : c.UsePassword = decide (c.Password ≠ []) := by
  simp [Connect.UsePassword, List.length_pos]

theorem Connect.UseWill_eq (c : Connect) :
    c.UseWill = decide (c.WillProperties ≠ [] ∧ c.WillTopic ≠ [] ∧ c.WillPayload ≠ []) := by
  simp [Connect.UseWill, List.length_pos, Bool.decide_and, Bool.and_assoc]

/-- The bytes of a CONNECT packet: header byte, remaining length, then name, version, flags and
the rest of the body. -/
theorem Connect.Bytes_eq (c : Connect) :
    c.Bytes = CONNECT :: (encodeLength
      (encodeString c.Name ++ (c.Version :: c.flags :: (encodeUint16 c.KeepAlive ++
        (propertyBytes c.Properties ++ c.payload)))).length ++
      (encodeString c.Name ++ (c.Version :: c.flags :: (encodeUint16 c.KeepAlive ++
        (propertyBytes c.Properties ++ c.payload))))) := by
  simp [Connect.Bytes, Connect.version]

/-- C13: for every Connect `c` with QOS in 0, 1, 2, the flags byte written by `c.Bytes` (the byte
after the name string and the version byte) equals 128 for a non-empty Username, plus 64 for a
non-empty Password, plus 32 for WillRetain, plus 8 times QOS, plus 4 when WillProperties,
WillTopic and WillPayload are all non-empty, plus 2 for CleanStart; bit 0 is 0. -/
theorem C13_connect_flags_encode (c : Connect) (hq : c.QOS ≤ 2) :
    c.flags = 128 * bit (decide (c.Username ≠ [])) + 64 * bit (decide (c.Password ≠ [])) +
      32 * bit c.WillRetain + 8 * c.QOS +
      4 * bit (decide (c.WillProperties ≠ [] ∧ c.WillTopic ≠ [] ∧ c.WillPayload ≠ [])) +
      2 * bit c.CleanStart ∧
    c.flags % 2 = 0 ∧
    ∃ body rest, c.Bytes = CONNECT :: (encodeLength body.length ++ body) ∧
      body = encodeString c.Name ++ c.Version :: c.flags :: rest := by
  have hsum : c.flags = 128 * bit (decide (c.Username ≠ [])) + 64 * bit (decide (c.Password ≠ [])) +
      32 * bit c.WillRetain + 8 * c.QOS +
      4 * bit (decide (c.WillProperties ≠ [] ∧ c.WillTopic ≠ [] ∧ c.WillPayload ≠ [])) +
      2 * bit c.CleanStart := by
    have h : c.flags = 128 * bit c.UseUsername + 64 * bit c.UsePassword + 32 * bit c.WillRetain +
        8 * c.QOS + 4 * bit c.UseWill + 2 * bit c.CleanStart :=
      flags_sum c.QOS c.UseUsername c.UsePassword c.WillRetain c.UseWill c.CleanStart hq
    rw [Connect.UsePassword_eq, Connect.UseWill_eq] at h
    exact h
  refine ⟨hsum, ?_, _, _, Connect.Bytes_eq c, rfl⟩
  rw [hsum]
  omega

/-- The flags byte of a packet with QoS 2, a username, a will and clean start. -/
theorem C13_connect_flags_encode_witness :
    willConnect.QOS ≤ 2 ∧
    (willConnect.flags =
      128 * bit (decide (willConnect.Username ≠ [])) +
      64 * bit (decide (willConnect.Password ≠ [])) +
      32 * bit willConnect.WillRetain + 8 * willConnect.QOS +
      4 * bit (decide (willConnect.WillProperties ≠ [] ∧ willConnect.WillTopic ≠ [] ∧
        willConnect.WillPayload ≠ [])) +
      2 * bit willConnect.CleanStart ∧
    willConnect.flags % 2 = 0 ∧
    ∃ body rest, willConnect.Bytes = CONNECT :: (encodeLength body.length ++ body) ∧
      body = encodeString willConnect.Name ++ willConnect.Version :: willConnect.flags :: rest) :=
  ⟨by decide, C13_connect_flags_encode willConnect (by decide)⟩

/-- C14: for every Connect, ConnAck and Disconnect value, `Bytes` is the header byte (0x10, 0x20,
0xE0, lower nibble 0), then `encodeLength` of the length of the body, then the body; and
`extractLength` applied to the bytes without the first one returns the length of the body and
the body, for an encoding whose length fits in 64 bits. -/
theorem C14_packet_framing (c : Connect) (ca : ConnAck) (d : Disconnect)
    (hc : c.Bytes.length < 2 ^ 64) (hca : ca.Bytes.length < 2 ^ 64)
    (hd : d.Bytes.length < 2 ^ 64) :
    (c.Bytes =
        [0x10] ++ encodeLength (c.version ++ [c.flags] ++ encodeUint16 c.KeepAlive ++
          propertyBytes c.Properties ++ c.payload).length ++
        (c.version ++ [c.flags] ++ encodeUint16 c.KeepAlive ++ propertyBytes c.Properties ++
          c.payload) ∧
      extractLength c.Bytes.tail =
        some ((c.version ++ [c.flags] ++ encodeUint16 c.KeepAlive ++
            propertyBytes c.Properties ++ c.payload).length,
          c.version ++ [c.flags] ++ encodeUint16 c.KeepAlive ++ propertyBytes c.Properties ++
            c.payload)) ∧
    (ca.Bytes =
        [0x20] ++ encodeLength (encodeBool ca.SessionPresent ++ [ca.ReasonCode] ++
          propertyBytes ca.Properties).length ++
        (encodeBool ca.SessionPresent ++ [ca.ReasonCode] ++ propertyBytes ca.Properties) ∧
      extractLength ca.Bytes.tail =
        some ((encodeBool ca.SessionPresent ++ [ca.ReasonCode] ++
            propertyBytes ca.Properties).length,
          encodeBool ca.SessionPresent ++ [ca.ReasonCode] ++ propertyBytes ca.Properties)) ∧
    (d.Bytes =
        [0xe0] ++ encodeLength ([d.ReasonCode] ++ propertyBytes d.Properties).length ++
        ([d.ReasonCode] ++ propertyBytes d.Properties) ∧
      extractLength d.Bytes.tail =
        some (([d.ReasonCode] ++ propertyBytes d.Properties).length,
          [d.ReasonCode] ++ propertyBytes d.Properties)) ∧
    0x10 &&& 0x0f = 0 ∧ 0x20 &&& 0x0f = 0 ∧ 0xe0 &&& 0x0f = 0 ∧
    0x10 = 1 <<< 4 ∧ 0x20 = 2 <<< 4 ∧ 0xe0 = 14 <<< 4 := by
  have e1 : c.Bytes =
        [0x10] ++ encodeLength (c.version ++ [c.flags] ++ encodeUint16 c.KeepAlive ++
          propertyBytes c.Properties ++ c.payload).length ++
        (c.version ++ [c.flags] ++ encodeUint16 c.KeepAlive ++ propertyBytes c.Properties ++
          c.payload) := by
    simp [Connect.Bytes, CONNECT]
  have e2 : ca.Bytes =
        [0x20] ++ encodeLength (encodeBool ca.SessionPresent ++ [ca.ReasonCode] ++
          propertyBytes ca.Properties).length ++
        (encodeBool ca.SessionPresent ++ [ca.ReasonCode] ++ propertyBytes ca.Properties) := by
    simp [ConnAck.Bytes, CONNACK]
  have e3 : d.Bytes =
        [0xe0] ++ encodeLength ([d.ReasonCode] ++ propertyBytes d.Properties).length ++
        ([d.ReasonCode] ++ propertyBytes d.Properties) := by
    simp [Disconnect.Bytes, DISCONNECT]
  refine ⟨⟨e1, ?_⟩, ⟨e2, ?_⟩, ⟨e3, ?_⟩, by decide, by decide, by decide, by decide, by decide,
    by decide⟩
  · rw [e1] at hc ⊢
    simp only [List.length_append, List.length_singleton] at hc
    rw [List.append_assoc, List.singleton_append, List.tail_cons]
    exact extractLength_encodeLength_append _ _ (by simp only [List.length_append, List.length_singleton]; omega)
  · rw [e2] at hca ⊢
    simp only [List.length_append, List.length_singleton] at hca
    rw [List.append_assoc, List.singleton_append, List.tail_cons]
    exact extractLength_encodeLength_append _ _ (by simp only [List.length_append, List.length_singleton]; omega)
  · rw [e3] at hd ⊢
    simp only [List.length_append, List.length_singleton] at hd
    rw [List.append_assoc, List.singleton_append, List.tail_cons]
    exact extractLength_encodeLength_append _ _ (by simp only [List.length_append, List.length_singleton]; omega)

/-- The three test packets are framed this way. -/
theorem C14_packet_framing_witness :
    (testConnect.Bytes.length < 2 ^ 64 ∧ testConnAck.Bytes.length < 2 ^ 64 ∧
      testDisconnect.Bytes.length < 2 ^ 64) ∧
    extractLength testConnect.Bytes.tail =
      some ((testConnect.version ++ [testConnect.flags] ++ encodeUint16 testConnect.KeepAlive ++
          propertyBytes testConnect.Properties ++ testConnect.payload).length,
        testConnect.version ++ [testConnect.flags] ++ encodeUint16 testConnect.KeepAlive ++
          propertyBytes testConnect.Properties ++ testConnect.payload) :=
  ⟨by decide,
    (C14_packet_framing testConnect testConnAck testDisconnect (by decide) (by decide)
      (by decide)).1.2⟩

/-- C15: for every string `s` and every binary blob `b` of byte length at least 65535,
`encodeString s` and `encodeBinary b` are the two bytes `[0xFF, 0xFE]` (the big-endian prefix
for 65534) followed by the first 65534 bytes of the payload, 65536 bytes in all. -/
theorem C15_silent_truncation (s b : List Nat) (hs : s.length ≥ 65535) (hb : b.length ≥ 65535) :
    encodeString s = [0xff, 0xfe] ++ s.take 65534 ∧ (encodeString s).length = 65536 ∧
    encodeBinary b = [0xff, 0xfe] ++ b.take 65534 ∧ (encodeBinary b).length = 65536 ∧
    0xff * 256 + 0xfe = 65534 := by
  have es : encodeString s = [0xff, 0xfe] ++ s.take 65534 := by
    have h1 : s.length ≥ MAX_UINT16 := hs
    have h2 : (List.take (MAX_UINT16 - 1) s).length = 65534 := by
      simp only [MAX_UINT16, List.length_take]
      omega
    simp only [encodeString, h1, if_true, h2, encodeUint16]
    simp [MAX_UINT16]
  have eb : encodeBinary b = [0xff, 0xfe] ++ b.take 65534 := by
    have h1 : b.length ≥ MAX_UINT16 := hb
    simp only [encodeBinary, h1, if_true, encodeUint16]
    simp [MAX_UINT16]
  refine ⟨es, ?_, eb, ?_, by norm_num⟩
  · rw [es]
    simp only [List.length_append, List.length_take, List.length_cons, List.length_nil]
    omega
  · rw [eb]
    simp only [List.length_append, List.length_take, List.length_cons, List.length_nil]
    omega

/-- A payload of exactly 65535 bytes is cut to 65534 bytes. -/
theorem C15_silent_truncation_witness :
    ((List.replicate 65535 97).length ≥ 65535 ∧ (List.replicate 65535 7).length ≥ 65535) ∧
    (encodeString (List.replicate 65535 97) = [0xff, 0xfe] ++ (List.replicate 65535 97).take 65534 ∧
    (encodeString (List.replicate 65535 97)).length = 65536 ∧
    encodeBinary (List.replicate 65535 7) = [0xff, 0xfe] ++ (List.replicate 65535 7).take 65534 ∧
    (encodeBinary (List.replicate 65535 7)).length = 65536 ∧
    0xff * 256 + 0xfe = 65534) :=
  ⟨⟨by rw [List.length_replicate], by rw [List.length_replicate]⟩,
    C15_silent_truncation (List.replicate 65535 97) (List.replicate 65535 7)
      (by rw [List.length_replicate]) (by rw [List.length_replicate])⟩

set_option maxRecDepth 8000 in
/-- The upper nibble of a byte, as the decoders mask it, is 16 times the quotient of the byte
by 16. -/
theorem and_0xf0_eq : ∀ x < 256, x &&& 0xf0 = x / 16 * 16 := by decide

/-- C17: each of the three decoders returns an error for the empty buffer, and for every
non-empty buffer whose first byte has an upper nibble different from the decoder's type (1 for
CONNECT, 2 for CONNACK, 14 for DISCONNECT), whatever bytes follow. -/
theorem C17_empty_and_wrong_type_rejected (c a d : Nat) (rest : List Nat)
    (hc : c < 256) (ha : a < 256) (hd : d < 256)
    (hc1 : c / 16 ≠ 1) (ha2 : a / 16 ≠ 2) (hd14 : d / 16 ≠ 14) :
    ConnectFromBytes [] = Outcome.error DecodeError.bufferIsEmpty ∧
    ConnAckFromBytes [] = Outcome.error DecodeError.bufferIsEmpty ∧
    DisconnectFromBytes [] = Outcome.error DecodeError.bufferIsEmpty ∧
    ConnectFromBytes (c :: rest) = Outcome.error DecodeError.controlTypeIsNot ∧
    ConnAckFromBytes (a :: rest) = Outcome.error DecodeError.controlTypeIsNot ∧
    DisconnectFromBytes (d :: rest) = Outcome.error DecodeError.controlTypeIsNot := by
  have h1 : c &&& 0xf0 ≠ CONNECT := by
    rw [and_0xf0_eq c hc]
    simp only [CONNECT]
    omega
  have h2 : a &&& 0xf0 ≠ CONNACK := by
    rw [and_0xf0_eq a ha]
    simp only [CONNACK]
    omega
  have h3 : d &&& 0xf0 ≠ DISCONNECT := by
    rw [and_0xf0_eq d hd]
    simp only [DISCONNECT]
    omega
  refine ⟨rfl, rfl, rfl, ?_, ?_, ?_⟩
  · simp only [ConnectFromBytes, h1, ne_eq, not_false_eq_true, if_true]
  · simp only [ConnAckFromBytes, h2, ne_eq, not_false_eq_true, if_true]
  · simp only [DisconnectFromBytes, h3, ne_eq, not_false_eq_true, if_true]

/-- Each decoder rejects the well-formed packet of another type: the CONNACK test packet's
header for CONNECT and DISCONNECT, the CONNECT header for CONNACK. -/
theorem C17_empty_and_wrong_type_rejected_witness :
    ((0x20 < 256 ∧ 0x10 < 256 ∧ 0x2f < 256) ∧ 0x20 / 16 ≠ 1 ∧ 0x10 / 16 ≠ 2 ∧ 0x2f / 16 ≠ 14) ∧
    (ConnectFromBytes [] = Outcome.error DecodeError.bufferIsEmpty ∧
    ConnAckFromBytes [] = Outcome.error DecodeError.bufferIsEmpty ∧
    DisconnectFromBytes [] = Outcome.error DecodeError.bufferIsEmpty ∧
    ConnectFromBytes [0x20, 9, 0, 0, 6, 34, 0, 10, 33, 0, 10] =
      Outcome.error DecodeError.controlTypeIsNot ∧
    ConnAckFromBytes [0x10, 9, 0, 0, 6, 34, 0, 10, 33, 0, 10] =
      Outcome.error DecodeError.controlTypeIsNot ∧
    DisconnectFromBytes [0x2f, 9, 0, 0, 6, 34, 0, 10, 33, 0, 10] =
      Outcome.error DecodeError.controlTypeIsNot) :=
  ⟨by decide,
    C17_empty_and_wrong_type_rejected 0x20 0x10 0x2f [9, 0, 0, 6, 34, 0, 10, 33, 0, 10]
      (by decide) (by decide) (by decide) (by decide) (by decide) (by decide)⟩

/-- C19: for every buffer of at least 2 bytes with declared length `L = 256 * b0 + b1` and rest
`r`, `extractString` and `extractBinary` return the first `min L (len r)` bytes of `r` as the
value and the remaining bytes of `r` as the remainder, so value and remainder make up `r`; for a
buffer shorter than 2 bytes they return the empty value and an empty remainder. -/
theorem C19_decode_clamps (b0 b1 : Nat) (r short : List Nat) (h0 : b0 < 256) (h1 : b1 < 256)
    (hshort : short.length < 2) :
    extractString (b0 :: b1 :: r) =
      (r.take (min (256 * b0 + b1) r.length), r.drop (min (256 * b0 + b1) r.length)) ∧
    extractBinary (b0 :: b1 :: r) =
      (r.take (min (256 * b0 + b1) r.length), r.drop (min (256 * b0 + b1) r.length)) ∧
    (extractString (b0 :: b1 :: r)).1 ++ (extractString (b0 :: b1 :: r)).2 = r ∧
    (extractBinary (b0 :: b1 :: r)).1 ++ (extractBinary (b0 :: b1 :: r)).2 = r ∧
    extractString short = ([], []) ∧ extractBinary short = ([], []) := by
  have hl : (if b0 * 256 + b1 > r.length then r.length % 65536 else b0 * 256 + b1) =
      min (256 * b0 + b1) r.length := by
    split_ifs with h
    · rw [Nat.min_def, if_neg (by omega)]
      omega
    · rw [Nat.min_def, if_pos (by omega)]
      omega
  have es : extractString (b0 :: b1 :: r) =
      (r.take (min (256 * b0 + b1) r.length), r.drop (min (256 * b0 + b1) r.length)) := by
    simp only [extractString, extractUint16, hl]
  have eb : extractBinary (b0 :: b1 :: r) =
      (r.take (min (256 * b0 + b1) r.length), r.drop (min (256 * b0 + b1) r.length)) := by
    simp only [extractBinary, extractUint16, hl]
  have hs : extractUint16 short = (0, []) := by
    match short, hshort with
    | [], _ => rfl
    | [_], _ => rfl
    | _ :: _ :: _, h => simp only [List.length_cons] at h; omega
  refine ⟨es, eb, ?_, ?_, ?_, ?_⟩
  · rw [es]
    exact List.take_append_drop _ _
  · rw [eb]
    exact List.take_append_drop _ _
  · simp [extractString, hs]
  · simp [extractBinary, hs]

/-- A declared length of 5 in front of 3 bytes is clamped to 3; a one-byte buffer gives the
empty value. -/
theorem C19_decode_clamps_witness :
    ((0 : Nat) < 256 ∧ (5 : Nat) < 256 ∧ [7].length < 2) ∧
    (extractString [0, 5, 104, 105, 33] =
      ([104, 105, 33].take (min (256 * 0 + 5) [104, 105, 33].length),
        [104, 105, 33].drop (min (256 * 0 + 5) [104, 105, 33].length)) ∧
    extractBinary [0, 5, 104, 105, 33] =
      ([104, 105, 33].take (min (256 * 0 + 5) [104, 105, 33].length),
        [104, 105, 33].drop (min (256 * 0 + 5) [104, 105, 33].length)) ∧
    (extractString [0, 5, 104, 105, 33]).1 ++ (extractString [0, 5, 104, 105, 33]).2 =
      [104, 105, 33] ∧
    (extractBinary [0, 5, 104, 105, 33]).1 ++ (extractBinary [0, 5, 104, 105, 33]).2 =
      [104, 105, 33] ∧
    extractString [7] = ([], []) ∧ extractBinary [7] = ([], [])) :=
  ⟨by decide, C19_decode_clamps 0 5 [104, 105, 33] [7] (by decide) (by decide) (by decide)⟩

/-- C20: `extractUint16` returns `(0, [])` on fewer than 2 bytes, `extractUint32` returns
`(0, [])` on fewer than 4 bytes, `extractBool` returns `(false, [])` and `extractByte` returns
`(0, [])` on the empty buffer; each of the four returns a value and a remainder on every input;
on a non-empty buffer `extractBool` returns true exactly when the first byte is nonzero. -/
theorem C20_permissive_short_input (b : List Nat) (x : Nat) (rest : List Nat) :
    (b.length < 2 → extractUint16 b = (0, [])) ∧
    (b.length < 4 → extractUint32 b = (0, [])) ∧
    extractBool [] = (false, []) ∧
    extractByte [] = (0, []) ∧
    ((extractBool (x :: rest)).1 = true ↔ x ≠ 0) ∧
    (extractBool (x :: rest)).2 = rest ∧
    (∃ v r, extractUint16 b = (v, r)) ∧ (∃ v r, extractUint32 b = (v, r)) ∧
    (∃ v r, extractBool b = (v, r)) ∧ (∃ v r, extractByte b = (v, r)) := by
  refine ⟨?_, ?_, rfl, rfl, ?_, rfl, ⟨_, _, rfl⟩, ⟨_, _, rfl⟩, ⟨_, _, rfl⟩, ⟨_, _, rfl⟩⟩
  · intro h
    match b, h with
    | [], _ => rfl
    | [_], _ => rfl
    | _ :: _ :: _, h => simp only [List.length_cons] at h; omega
  · intro h
    match b, h with
    | [], _ => rfl
    | [_], _ => rfl
    | [_, _], _ => rfl
    | [_, _, _], _ => rfl
    | _ :: _ :: _ :: _ :: _, h => simp only [List.length_cons] at h; omega
  · simp only [extractBool, decide_eq_true_eq]
    omega

/-! ## Shape of the variable-length encoding -/

/-- The bytes the encoder loop writes for a positive `l`: their number `k` is the number of
base-128 digits of `l`, byte `i` holds digit `i` in its low 7 bits, and bit 7 is set on every
byte but the last. -/
theorem encodeLengthLoop_shape (fuel : Nat) :
    ∀ l, 0 < l → l ≤ fuel →
      0 < (encodeLengthLoop fuel l).length ∧
      128 ^ ((encodeLengthLoop fuel l).length - 1) ≤ l ∧
      l < 128 ^ (encodeLengthLoop fuel l).length ∧
      (∀ i, i < (encodeLengthLoop fuel l).length →
        (encodeLengthLoop fuel l).getD i 0 &&& 127 = l / 128 ^ i % 128) ∧
      (∀ i, i + 1 < (encodeLengthLoop fuel l).length →
        (encodeLengthLoop fuel l).getD i 0 &&& 128 = 128) ∧
      (encodeLengthLoop fuel l).getD ((encodeLengthLoop fuel l).length - 1) 0 &&& 128 = 0 := by
  induction fuel with
  | zero => intro l h0 hf; omega
  | succ fuel ih =>
    intro l h0 hf
    rw [encodeLengthLoop_succ fuel l h0]
    have ha : l % 128 < 128 := Nat.mod_lt _ (by norm_num)
    by_cases hq : l / 128 > 0
    · obtain ⟨hpos, hlow, hupp, hdig, hset, hlast⟩ := ih (l / 128) hq (by omega)
      generalize encodeLengthLoop fuel (l / 128) = out at hpos hlow hupp hdig hset hlast
      obtain ⟨k, hk⟩ : ∃ k, out.length = k + 1 := ⟨out.length - 1, by omega⟩
      simp only [hk, Nat.add_sub_cancel] at hlow hupp hdig hset hlast
      simp only [hq, if_true, List.length_cons, hk, Nat.add_sub_cancel]
      refine ⟨by omega, ?_, ?_, ?_, ?_, ?_⟩
      · rw [pow_succ]
        omega
      · rw [pow_succ]
        rw [pow_succ] at hupp
        omega
      · intro i hi
        cases i with
        | zero => simp [or_128_and_127 _ ha]
        | succ j =>
          rw [List.getD_cons_succ, hdig j (by omega), pow_succ, Nat.mul_comm,
            Nat.div_div_eq_div_mul]
      · intro i hi
        cases i with
        | zero => simp [or_128_and_128 _ ha]
        | succ j =>
          rw [List.getD_cons_succ]
          exact hset j (by omega)
      · rw [List.getD_cons_succ]
        exact hlast
    · have hl : l / 128 = 0 := by omega
      have hmod : l % 128 = l := by omega
      have hl128 : l < 128 := by omega
      simp only [hl, hmod, gt_iff_lt, lt_irrefl, if_false, encodeLengthLoop_zero,
        List.length_singleton, Nat.sub_self, pow_zero, pow_one]
      refine ⟨by omega, by omega, hl128, ?_, ?_, ?_⟩
      · intro i hi
        have : i = 0 := by omega
        subst this
        simp [and_127_of_lt l hl128, hmod]
      · intro i hi
        omega
      · simp [and_128_of_lt l hl128]

/-- C18: for every unsigned 64-bit `n`, `encodeLength n` is `[0]` (length 1) when `n = 0` and
otherwise has as many bytes as the least `k` with `n < 128 ^ k`; byte `i` holds
`(n / 128 ^ i) mod 128` in its low 7 bits, every byte except the last has bit 7 set and the
last byte has bit 7 clear. -/
theorem C18_minimal_length_encoding (n : Nat) (hn : n < 2 ^ 64) :
    (n = 0 → encodeLength n = [0]) ∧
    (0 < n → n < 128 ^ (encodeLength n).length ∧
      ∀ k, n < 128 ^ k → (encodeLength n).length ≤ k) ∧
    (∀ i, i < (encodeLength n).length →
      (encodeLength n).getD i 0 &&& 127 = n / 128 ^ i % 128) ∧
    (∀ i, i + 1 < (encodeLength n).length → (encodeLength n).getD i 0 &&& 128 = 128) ∧
    (encodeLength n).getD ((encodeLength n).length - 1) 0 &&& 128 = 0 ∧
    ((encodeLength 0).length = 1 ∧ (encodeLength 1).length = 1 ∧
      (encodeLength 127).length = 1 ∧ (encodeLength 128).length = 2 ∧
      (encodeLength 16383).length = 2 ∧ (encodeLength 16384).length = 3 ∧
      (encodeLength 2097151).length = 3 ∧ (encodeLength 2097152).length = 4) := by
  by_cases h0 : n = 0
  · subst h0
    refine ⟨fun _ => rfl, fun h => absurd h (by omega), ?_, ?_, by decide, by decide⟩
    · intro i hi
      have : i = 0 := by simpa [encodeLength] using hi
      subst this
      decide
    · intro i hi
      simp [encodeLength] at hi
  · obtain ⟨hpos, hlow, hupp, hdig, hset, hlast⟩ :=
      encodeLengthLoop_shape n n (by omega) (le_refl _)
    have he : encodeLength n = encodeLengthLoop n n := by simp [encodeLength, h0]
    rw [he]
    refine ⟨fun h => absurd h h0, fun _ => ⟨hupp, ?_⟩, hdig, hset, hlast, by decide⟩
    intro k hk
    by_contra hlt
    have h1 : k ≤ (encodeLengthLoop n n).length - 1 := by omega
    have h2 : 128 ^ k ≤ 128 ^ ((encodeLengthLoop n n).length - 1) :=
      Nat.pow_le_pow_right (by norm_num) h1
    omega

/-- The test value 301 takes two bytes, `[173, 2]`: 301 mod 128 = 45 with bit 7 set, then
301 / 128 = 2. -/
theorem C18_minimal_length_encoding_witness :
    (301 < 2 ^ 64) ∧ (encodeLength 301).length = 2 ∧
    (0 < 301 → 301 < 128 ^ (encodeLength 301).length ∧
      ∀ k, 301 < 128 ^ k → (encodeLength 301).length ≤ k) :=
  ⟨by norm_num, by decide, (C18_minimal_length_encoding 301 (by norm_num)).2.1⟩

/-! ## CONNECT body and flags -/

/-- What `Connect.Bytes` writes for a packet with a non-empty client id: after the header byte
and the remaining-length field come the name string, the version byte, the flags byte, the
keep-alive, the property list and the client-id string, then each of the five optional parts
whose own field is non-empty; for a QOS of at most 2 the has-username and has-password bits are
set exactly for a non-empty Username and Password, and the has-will bit exactly when all three
will fields are non-empty. `Connect.payload` tests each will field on its own, so a will part
can be on the wire while the has-will bit is clear. -/
theorem Connect.Bytes_bodyLayout (c : Connect) (hid : c.ClientId ≠ []) :
    c.Bytes = CONNECT :: (encodeLength c.bodyLayout.length ++ c.bodyLayout) ∧
    (c.QOS ≤ 2 →
      (c.flags &&& 128 = 128 ↔ c.Username ≠ []) ∧
      (c.flags &&& 64 = 64 ↔ c.Password ≠ []) ∧
      (c.flags &&& 4 = 4 ↔ c.WillProperties ≠ [] ∧ c.WillTopic ≠ [] ∧ c.WillPayload ≠ [])) := by
  constructor
  · have hb : encodeString c.Name ++ (c.Version :: c.flags :: (encodeUint16 c.KeepAlive ++
        (propertyBytes c.Properties ++ c.payload))) = c.bodyLayout := by
      by_cases h1 : c.WillProperties = [] <;> by_cases h2 : c.WillTopic = [] <;>
        by_cases h3 : c.WillPayload = [] <;> by_cases h4 : c.Username = [] <;>
        by_cases h5 : c.Password = [] <;>
        simp [Connect.payload, Connect.bodyLayout, hid, List.length_pos, h1, h2, h3, h4, h5]
    rw [Connect.Bytes_eq, hb]
  · intro hq
    obtain ⟨hfu, hfp, -, -, hfw, -⟩ := Connect.flags_decode c hq
    rw [Connect.UsePassword_eq] at hfp
    rw [Connect.UseWill_eq] at hfw
    have hfu2 : decide (c.flags &&& 128 = 128) = decide (c.Username ≠ []) := hfu
    simp only [decide_eq_decide] at hfu2 hfp hfw
    exact ⟨hfu2, hfp, hfw⟩

/-- C11 at failing inputs: the packet with an empty client id and the username `test` is
written without a client-id string, although the layout has one for every packet and
`ConnectFromBytes` always reads one (it takes the username for the client id); the packets with
only a will topic, and with a will topic and a will payload, have the has-will bit clear and
still carry those will parts after the client id, and `ConnectFromBytes` rejects the bytes the
encoder wrote for them. -/
theorem C11_encoder_body_defects :
    anonymousConnect.ClientId = [] ∧
    extractLength anonymousConnect.Bytes.tail =
      some (17, [0, 4, 77, 81, 84, 84, 5, 128, 0, 0, 0] ++ [0, 4, 116, 101, 115, 116]) ∧
    anonymousConnect.claimedBody =
      [0, 4, 77, 81, 84, 84, 5, 128, 0, 0, 0] ++ encodeString [] ++ [0, 4, 116, 101, 115, 116] ∧
    encodeString [] = [0, 0] ∧
    ConnectFromBytes anonymousConnect.Bytes =
      Outcome.ok { anonymousConnect with ClientId := [116, 101, 115, 116], Username := [] } ∧
    willTopicConnect.flags &&& 4 = 0 ∧
    extractLength willTopicConnect.Bytes.tail =
      some (17, [0, 4, 77, 81, 84, 84, 5, 0, 0, 0, 0, 0, 1, 97] ++ encodeString [116]) ∧
    willTopicConnect.claimedBody = [0, 4, 77, 81, 84, 84, 5, 0, 0, 0, 0, 0, 1, 97] ∧
    ConnectFromBytes willTopicConnect.Bytes = Outcome.error DecodeError.tooManyBytes ∧
    willTopicPayloadConnect.flags &&& 4 = 0 ∧
    extractLength willTopicPayloadConnect.Bytes.tail =
      some (20, [0, 4, 77, 81, 84, 84, 5, 0, 0, 0, 0, 0, 1, 97] ++ encodeString [116] ++
        encodeBinary [1]) ∧
    willTopicPayloadConnect.claimedBody = [0, 4, 77, 81, 84, 84, 5, 0, 0, 0, 0, 0, 1, 97] ∧
    ConnectFromBytes willTopicPayloadConnect.Bytes =
      Outcome.error DecodeError.tooManyBytes := by
  decide

/-- What `ConnectFromBytes` makes of the flags byte `f` of a buffer it accepts: WillRetain is
bit 5 and CleanStart is bit 1, QOS is `f` masked with 24 (bits 4-3 left in place, not shifted
down), and the username, the password and the will fields stay empty when bit 7, bit 6 and
bit 2 are clear. -/
theorem ConnectFromBytes_flags (b0 n : Nat) (b1 buf : List Nat) (c : Connect)
    (hl : extractLength b1 = some (n, buf))
    (h : ConnectFromBytes (b0 :: b1) = Outcome.ok c) :
    c.WillRetain = decide ((extractByte (extractByte (extractString buf).2).2).1 &&& 32 = 32) ∧
    c.QOS = (extractByte (extractByte (extractString buf).2).2).1 &&& 24 ∧
    c.CleanStart = decide ((extractByte (extractByte (extractString buf).2).2).1 &&& 2 = 2) ∧
    ((extractByte (extractByte (extractString buf).2).2).1 &&& 128 ≠ 128 → c.Username = []) ∧
    ((extractByte (extractByte (extractString buf).2).2).1 &&& 64 ≠ 64 → c.Password = []) ∧
    ((extractByte (extractByte (extractString buf).2).2).1 &&& 4 ≠ 4 →
      c.WillProperties = [] ∧ c.WillTopic = [] ∧ c.WillPayload = []) := by
  simp only [ConnectFromBytes, hl] at h
  split_ifs at h
  all_goals
    cases hp : extractProperties
      (extractUint16 (extractByte (extractByte (extractString buf).2).2).2).2 with
    | none => simp [hp] at h
    | some pr =>
      obtain ⟨props, buf1⟩ := pr
      simp only [hp] at h
      first
      | (cases hwp : extractProperties (extractString buf1).2 with
          | none => simp [hwp] at h
          | some wr =>
            obtain ⟨wprops, buf2⟩ := wr
            simp only [hwp] at h
            split_ifs at h
            simp only [Outcome.ok.injEq] at h
            subst h
            simp_all)
      | (split_ifs at h
         simp only [Outcome.ok.injEq] at h
         subst h
         simp_all)

/-- C12 at a failing input: in the CONNECT buffer written for QoS 1 the flags byte is 8, so bits
4-3 hold the number 1, and `ConnectFromBytes` returns QOS = 8; with the flags byte 16 (QoS 2) it
returns QOS = 16. The other parts of the claim hold: with the flags byte 1 the buffer is
accepted, so bit 0 is not checked. -/
theorem C12_qos_not_shifted_back :
    ConnectFromBytes [16, 14, 0, 4, 77, 81, 84, 84, 5, 8, 0, 0, 0, 0, 1, 97] =
      Outcome.ok { qosConnect with QOS := 8 } ∧
    8 >>> 3 &&& 3 = 1 ∧
    ConnectFromBytes [16, 14, 0, 4, 77, 81, 84, 84, 5, 16, 0, 0, 0, 0, 1, 97] =
      Outcome.ok { qosConnect with QOS := 16 } ∧
    16 >>> 3 &&& 3 = 2 ∧
    ConnectFromBytes [16, 14, 0, 4, 77, 81, 84, 84, 5, 1, 0, 0, 0, 0, 1, 97] =
      Outcome.ok { qosConnect with QOS := 0 } := by
  decide

/-! ## Tag table on decode -/

/-- The `switch` of `extractProperties` decodes, for each of the 25 identifiers, the value the
tag table assigns to the bytes after the tag. -/
theorem extractValue_tableValue (tag : Nat) (v : List Nat) (h : tag ∈ knownTags) :
    ∃ buf, extractValue tag v = some (tableValue tag v, buf) := by
  rcases (knownTags_groups tag).mp h with hg | hg | hg | hg | hg | hg
  · refine ⟨(extractBool v).2, ?_⟩
    rw [extractValue_bool _ _ hg]
    simp [tableValue, hg, Prod.map]
  · refine ⟨(extractUint32 v).2, ?_⟩
    rw [extractValue_uint32 _ _ hg]
    have h1 : tag ∉ boolTags := by
      revert hg; simp only [uint32Tags, boolTags, List.mem_cons, List.mem_singleton,
        List.not_mem_nil, or_false]; omega
    simp [tableValue, hg, h1, Prod.map]
  · refine ⟨(extractUint16 v).2, ?_⟩
    rw [extractValue_uint16 _ _ hg]
    have h1 : tag ∉ boolTags ∧ tag ∉ uint32Tags := by
      revert hg; simp only [uint16Tags, uint32Tags, boolTags, List.mem_cons, List.mem_singleton,
        List.not_mem_nil, or_false]; omega
    simp [tableValue, hg, h1, Prod.map]
  · refine ⟨(extractString v).2, ?_⟩
    rw [extractValue_string _ _ hg]
    have h1 : tag ∉ boolTags ∧ tag ∉ uint32Tags ∧ tag ∉ uint16Tags := by
      revert hg; simp only [stringTags, uint16Tags, uint32Tags, boolTags, List.mem_cons,
        List.mem_singleton, List.not_mem_nil, or_false]; omega
    simp [tableValue, hg, h1, Prod.map]
  · refine ⟨(extractBinary v).2, ?_⟩
    rw [extractValue_binary _ _ hg]
    have h1 : tag ∉ boolTags ∧ tag ∉ uint32Tags ∧ tag ∉ uint16Tags ∧ tag ∉ stringTags := by
      revert hg; simp only [binaryTags, stringTags, uint16Tags, uint32Tags, boolTags,
        List.mem_cons, List.mem_singleton, List.not_mem_nil, or_false]; omega
    simp [tableValue, hg, h1, Prod.map]
  · refine ⟨(extractKeyValue v).2, ?_⟩
    rw [extractValue_keyValue _ _ hg]
    have h1 : tag ∉ boolTags ∧ tag ∉ uint32Tags ∧ tag ∉ uint16Tags ∧ tag ∉ stringTags ∧
        tag ∉ binaryTags := by
      revert hg; simp only [keyValueTags, binaryTags, stringTags, uint16Tags, uint32Tags,
        boolTags, List.mem_cons, List.mem_singleton, List.not_mem_nil, or_false]; omega
    simp [tableValue, hg, h1, Prod.map]

/-- The loop of `extractProperties` only appends: what it returns starts with the properties it
was started with. -/
theorem extractPropertiesLoop_prefix (fuel : Nat) :
    ∀ (buf : List Nat) (result out : List Property),
      extractPropertiesLoop fuel buf result = some out → ∃ more, out = result ++ more := by
  induction fuel with
  | zero =>
    intro buf result out h
    simp only [extractPropertiesLoop, Option.some.injEq] at h
    exact ⟨[], by simp [h]⟩
  | succ fuel ih =>
    intro buf result out h
    cases buf with
    | nil =>
      rw [extractPropertiesLoop_nil] at h
      simp only [Option.some.injEq] at h
      exact ⟨[], by simp [h]⟩
    | cons tag rest =>
      rw [extractPropertiesLoop_cons] at h
      cases hv : extractValue tag rest with
      | none => simp [hv] at h
      | some r =>
        obtain ⟨value, buf2⟩ := r
        simp only [hv] at h
        obtain ⟨more, hmore⟩ := ih _ _ _ h
        exact ⟨{ Typ := tag, Value := value } :: more, by simp [hmore]⟩

/-- C16 as stated fails: in the region `[1, 1, 200]` the known tag 1 is followed by its value
and then by the unknown tag 200, and `extractProperties` produces no property at all. -/
theorem C16_first_property_counterexample :
    ¬ ∀ (tag L : Nat) (v b r : List Nat), tag ∈ knownTags → extractLength b = some (L, r) →
      L ≤ r.length → r.take L = tag :: v →
      ∃ ps rest, extractProperties b =
        some ({ Typ := tag, Value := tableValue tag v } :: ps, rest) := by
  intro h
  obtain ⟨ps, rest, hps⟩ :=
    h 1 3 [1, 200] [3, 1, 1, 200] [1, 1, 200] (by decide) (by decide) (by decide) (by decide)
  have e : extractProperties [3, 1, 1, 200] = some ([], []) := by decide
  rw [e] at hps
  simp at hps

/-- C16, amended: for each of the 25 identifiers and every fully present list region that
starts with that tag byte followed by bytes `v`, if the parse of the region does not abort on an
unknown tag, the first property `extractProperties` produces has that tag and the value
obtained by applying to `v` the primitive decoder of the kind the table lists. -/
theorem C16_tag_table_decode (tag L : Nat) (v b r : List Nat) (htag : tag ∈ knownTags)
    (hlen : extractLength b = some (L, r)) (hfull : L ≤ r.length)
    (hreg : r.take L = tag :: v) (hno : ¬ ReadsUnknownTag (r.take L)) :
    ∃ ps, extractProperties b =
      some ({ Typ := tag, Value := tableValue tag v } :: ps, r.drop L) := by
  have hiff := extractPropertiesLoop_eq_none_iff (r.take L).length (r.take L) [] (le_refl _)
  simp only [extractProperties, hlen, gt_iff_lt, if_neg (Nat.not_lt.mpr hfull)]
  cases hloop : extractPropertiesLoop (r.take L).length (r.take L) [] with
  | none => exact absurd (hiff.mp hloop) hno
  | some out =>
    simp only [Option.some.injEq, Prod.mk.injEq, and_true]
    obtain ⟨buf, hv⟩ := extractValue_tableValue tag v htag
    rw [hreg, List.length_cons, extractPropertiesLoop_cons, hv] at hloop
    simp only [List.nil_append] at hloop
    obtain ⟨more, hmore⟩ := extractPropertiesLoop_prefix _ _ _ _ hloop
    exact ⟨more, by simpa using hmore⟩

/-- A region holding RECEIVE_MAX = 10, followed by the bytes 7 and 8. -/
theorem C16_tag_table_decode_witness :
    (33 ∈ knownTags ∧ extractLength [3, 33, 0, 10, 7, 8] = some (3, [33, 0, 10, 7, 8]) ∧
      3 ≤ [33, 0, 10, 7, 8].length ∧ [33, 0, 10, 7, 8].take 3 = 33 :: [0, 10] ∧
      ¬ ReadsUnknownTag ([33, 0, 10, 7, 8].take 3)) ∧
    ∃ ps, extractProperties [3, 33, 0, 10, 7, 8] =
      some ({ Typ := 33, Value := tableValue 33 [0, 10] } :: ps, [33, 0, 10, 7, 8].drop 3) :=
  have hno : ¬ ReadsUnknownTag ([33, 0, 10, 7, 8].take 3) := fun h =>
    absurd ((extractPropertiesLoop_eq_none_iff 3 [33, 0, 10] [] (by decide)).mpr h) (by decide)
  ⟨⟨by decide, by decide, by decide, by decide, hno⟩,
    C16_tag_table_decode 33 3 [0, 10] [3, 33, 0, 10, 7, 8] [33, 0, 10, 7, 8] (by decide)
      (by decide) (by decide) (by decide) hno⟩

/-! ## Property lists and constructors -/

/-- C21: for every list `ps` of properties in which each tag is one of the 25 known identifiers
and each value is of the kind the tag table assigns to the tag (strings, binaries and both
KeyValue strings shorter than 65535 bytes), and for every trailer `t`, `extractProperties`
applied to `propertyBytes ps` followed by `t` returns `ps`, in the same order and number, and
`t`. -/
theorem C21_property_list_roundtrip (ps : List Property) (t : List Nat)
    (hk : ∀ p ∈ ps, p.wellKinded = true) (hlen : (propertyBytes ps).length < 2 ^ 64) :
    extractProperties (propertyBytes ps ++ t) = some (ps, t) ∧
    (∀ p ∈ ps, p.Typ ∈ knownTags) := by
  rw [propertyBytes_length] at hlen
  refine ⟨extractProperties_propertyBytes ps t hk (by omega), ?_⟩
  intro p hp
  have h := hk p hp
  rw [knownTags_groups]
  obtain ⟨typ, value⟩ := p
  cases value <;> simp only [Property.wellKinded, Bool.and_eq_true, decide_eq_true_eq] at h
  · exact Or.inl h
  · exact absurd h (by simp)
  · exact Or.inr (Or.inr (Or.inl h.1))
  · exact Or.inr (Or.inl h.1)
  · exact Or.inr (Or.inr (Or.inr (Or.inr (Or.inl h.1))))
  · exact Or.inr (Or.inr (Or.inr (Or.inl h.1)))
  · exact Or.inr (Or.inr (Or.inr (Or.inr (Or.inr h.1.1))))
  · exact absurd h (by simp)

/-- A list with one property of each of the six kinds is read back with its trailer. -/
theorem C21_property_list_roundtrip_witness :
    ((∀ p ∈ mixedProperties, p.wellKinded = true) ∧
      (propertyBytes mixedProperties).length < 2 ^ 64) ∧
    (extractProperties (propertyBytes mixedProperties ++ [8, 9, 10]) =
      some (mixedProperties, [8, 9, 10]) ∧
    (∀ p ∈ mixedProperties, p.Typ ∈ knownTags)) :=
  ⟨by decide, C21_property_list_roundtrip mixedProperties [8, 9, 10] (by decide) (by decide)⟩

/-- The constructors that use the identifier they are named after: each returns a property with
that tag and with the argument as its value. -/
theorem constructors_own_tag (b : Bool) (i : Nat) (s k : List Nat) :
    SessionExpiryIntervalProperty i = { Typ := PROP_SESSION_EXPIRY_INTERVAL, Value := .uint32 i } ∧
    ReceiveMaxProperty i = { Typ := PROP_RECEIVE_MAX, Value := .uint16 i } ∧
    MaxPacketSizeProperty i = { Typ := PROP_MAX_PACKET_SIZE, Value := .uint32 i } ∧
    AliasMaxProperty i = { Typ := PROP_ALIAS_MAX, Value := .uint16 i } ∧
    RequestResponseInfoProperty b = { Typ := PROP_REQUEST_RESPONSE_INFO, Value := .bool b } ∧
    RequestProblemInfoProperty b = { Typ := PROP_REQUEST_PROBLEM_INFO, Value := .bool b } ∧
    UserPropertyProperty k s =
      { Typ := PROP_USER_PROPERTY, Value := .keyValue { Key := k, Value := s } } ∧
    AuthenticationMethodProperty s = { Typ := PROP_AUTHENTICATION_METHOD, Value := .string s } ∧
    AuthenticationDataProperty s = { Typ := PROP_AUTHENTICATION_DATA, Value := .bytes s } ∧
    DelayIntervalProperty i = { Typ := PROP_DELAY_INTERVAL, Value := .uint32 i } ∧
    PayloadFormatProperty b = { Typ := PROP_PAYLOAD_FORMAT, Value := .bool b } ∧
    MessageExpiryIntervalProperty i =
      { Typ := PROP_MESSAGE_EXPIRY_INTERVAL, Value := .uint32 i } ∧
    ContentTypeProperty s = { Typ := PROP_CONTENT_TYPE, Value := .string s } ∧
    ResponseTopicProperty s = { Typ := PROP_RESPONSE_TOPIC, Value := .string s } ∧
    CorrelationDataProperty s = { Typ := PROP_CORRELATION_DATA, Value := .bytes s } ∧
    MaxQOSProperty b = { Typ := PROP_MAX_QOS, Value := .bool b } ∧
    AssignedClientIdProperty s = { Typ := PROP_ASSIGNED_CLIENT_ID, Value := .string s } ∧
    WildcardSubscriptionAvailableProperty b =
      { Typ := PROP_WILDCARD_SUBSCRIPTION_AVAILABLE, Value := .bool b } ∧
    SubscriptionIdsAvailableProperty b =
      { Typ := PROP_SUBSCRIPTION_IDS_AVAILABLE, Value := .bool b } ∧
    ShardSubscriptionAvailableProperty b =
      { Typ := PROP_SHARED_SUBSCTION_AVAILABLE, Value := .bool b } ∧
    ServerKeepAliveProperty i = { Typ := PROP_SERVER_KEEP_ALIVE, Value := .uint16 i } ∧
    ResponseInfoProperty s = { Typ := PROP_RESPONSE_INFO, Value := .string s } ∧
    ServerReferenceProperty s = { Typ := PROP_SERVER_REFERENCE, Value := .string s } :=
  ⟨rfl, rfl, rfl, rfl, rfl, rfl, rfl, rfl, rfl, rfl, rfl, rfl, rfl, rfl, rfl, rfl, rfl, rfl,
    rfl, rfl, rfl, rfl, rfl⟩

/-- C22 at failing inputs: `RetainAvailableProperty` returns a property tagged PROP_MAX_QOS
(36), not PROP_RETAIN_AVAILABLE (37), and `ReasonStringProperty` returns a property tagged
PROP_ASSIGNED_CLIENT_ID (18), not PROP_REASON_STRING (31); the values are the arguments
unchanged, and `SessionExpiryIntervalProperty` does use PROP_SESSION_EXPIRY_INTERVAL (17). On
the wire the two properties carry the wrong tag byte and are read back as MAX_QOS and
ASSIGNED_CLIENT_ID. -/
theorem C22_constructors_wrong_tag :
    (RetainAvailableProperty true).Typ = 36 ∧
    (RetainAvailableProperty true).Typ ≠ PROP_RETAIN_AVAILABLE ∧
    PROP_RETAIN_AVAILABLE = 37 ∧
    RetainAvailableProperty true = MaxQOSProperty true ∧
    (RetainAvailableProperty true).Value = Any.bool true ∧
    (ReasonStringProperty [110, 111]).Typ = 18 ∧
    (ReasonStringProperty [110, 111]).Typ ≠ PROP_REASON_STRING ∧
    PROP_REASON_STRING = 31 ∧
    ReasonStringProperty [110, 111] = AssignedClientIdProperty [110, 111] ∧
    (ReasonStringProperty [110, 111]).Value = Any.string [110, 111] ∧
    (SessionExpiryIntervalProperty 0).Typ = 17 ∧
    (RetainAvailableProperty true).Bytes = [36, 1] ∧
    (ReasonStringProperty [110, 111]).Bytes = [18, 0, 2, 110, 111] := by
  decide

end Gmq
